import Mathlib

/-!
Shallow embedding, in Lean 4, of the core of the `ai-sdk-provider-amp-sdk`
repository: the `AmpLanguageModel` adapter (`doGenerate` / `doStream`), the
message converter `convertToAmpMessages`, the JSON extractor `extractJson`,
the settings validator `validateSettings`, the error helpers of `errors.ts`,
and the provider factory `createAmp`.

Modelling conventions:
* The external agent (`execute` of `@sourcegraph/amp-sdk`) is modelled as the
  list of events it yields, plus an optional error the iterator throws after
  the last yielded event (this also covers mid-stream failures: truncate the
  list at the failure point).  Logging is side-effect-only and is dropped.
* JavaScript `undefined` is `Option.none`; nullish coalescing `a ?? b` is
  `a <|> b`; truthiness of optional strings/booleans is made explicit.
* Machine text is Lean `String` (JS UTF-16 length vs. Lean char count only
  matters for the 500 000-character prompt warning and never for the claims).
* `JSON.parse(s)` succeeding is modelled by the executable ECMA-404 validity
  checker `jsonParseOk` below; JS `String.prototype.trim` by `jsTrim`
  (restricted to ASCII whitespace), `substring(0, n)` by `jsTake`.
-/

namespace AmpSdk

/-- A JavaScript `boolean | string` value, used for the `continue` setting. -/
inductive BoolOrStr where
  | bool (b : Bool)
  | str (s : String)
deriving DecidableEq, Repr

/-- JS truthiness of an optional `boolean | string` value
(`undefined` and `false` and the empty string are falsy). -/
def jsTruthyBS : Option BoolOrStr → Bool
  | none => false
  | some (.bool b) => b
  | some (.str s) => !(s == "")

/-- JS truthiness of an optional string (`undefined` and `""` are falsy). -/
def jsTruthyStr : Option String → Bool
  | none => false
  | some s => !(s == "")

/-- Runtime value of the `permissions` setting: the validator only checks
`Array.isArray`, so only array-ness is modelled. -/
inductive PermissionsValue where
  | array
  | nonArray
deriving DecidableEq, Repr

/-- The `logger` setting: `false` disables logging, otherwise a custom logger
object may be supplied (its behaviour is side-effect-only and not modelled). -/
inductive LoggerSetting where
  | disabled
  | custom
deriving DecidableEq, Repr

/-- `AmpSettings` of `types.ts`.  `continue` is a Lean keyword, so the field is
called `continueOpt`; `maxTurns` is modelled as an integer (non-integral JS
numbers are outside the model), and opaque sub-objects (`mcpConfig`,
`toolbox`, `env` values) are kept as plain data. -/
structure AmpSettings where
  cwd : Option String := none
  dangerouslyAllowAll : Option Bool := none
  continueOpt : Option BoolOrStr := none
  resume : Option String := none
  maxTurns : Option Int := none
  logLevel : Option String := none
  logFile : Option String := none
  mcpConfig : Option String := none
  env : Option (List (String × Option String)) := none
  toolbox : Option String := none
  permissions : Option PermissionsValue := none
  verbose : Option Bool := none
  logger : Option LoggerSetting := none
deriving DecidableEq, Repr

/-- The options bag handed to the external `execute` call
(`ExecuteOptions['options']`), as built by `doGenerate` / `doStream`. -/
structure AmpOptions where
  dangerouslyAllowAll : Option Bool
  cwd : Option String
  continueDir : Option String
  logLevel : Option String
  logFile : Option String
  mcpConfig : Option String
  env : Option (List (String × String))
  toolbox : Option String
  permissions : Option PermissionsValue
deriving DecidableEq, Repr

/-- The `env` entry filter of `doGenerate` / `doStream`:
`Object.entries(env).filter(([_, v]) => v !== undefined)`. -/
def filterEnv : List (String × Option String) → List (String × String)
  | [] => []
  | (_, none) :: rest => filterEnv rest
  | (k, some v) :: rest => (k, v) :: filterEnv rest

/-- Builds the invocation options exactly as both `doGenerate` (line 260) and
`doStream` (line 427) do; in particular the continuation directive is
`this.settings.continue ? (this.settings.resume ?? this.sessionId) : undefined`. -/
def mkAmpOptions (settings : AmpSettings) (sessionId : Option String) : AmpOptions :=
  { dangerouslyAllowAll := settings.dangerouslyAllowAll
    cwd := settings.cwd
    continueDir := if jsTruthyBS settings.continueOpt then settings.resume <|> sessionId else none
    logLevel := settings.logLevel
    logFile := settings.logFile
    mcpConfig := settings.mcpConfig
    env := settings.env.map filterEnv
    toolbox := settings.toolbox
    permissions := settings.permissions }

/-- `AmpLanguageModel.setSessionId`: records a session id only when the
incoming id is truthy and no id has been remembered yet (first-write-wins). -/
def setSessionId (current : Option String) (sessionId : String) : Option String :=
  if sessionId != "" && current == none then some sessionId else current

/-- The AI SDK finish-reason vocabulary (only the values the mapper emits). -/
inductive FinishReason where
  | stop
  | length
  | error
  | unknown
deriving DecidableEq, Repr

/-- `mapAmpFinishReason` of `map-amp-finish-reason.ts`. -/
def mapAmpFinishReason : Option String → FinishReason
  | some s =>
    if s == "success" then .stop
    else if s == "error_max_turns" then .length
    else if s == "error_during_execution" then .error
    else .unknown
  | none => .unknown

/-- Raw usage counters of a terminal result event. -/
structure RawUsage where
  input_tokens : Option Nat := none
  output_tokens : Option Nat := none
  cache_creation_input_tokens : Option Nat := none
  cache_read_input_tokens : Option Nat := none
deriving DecidableEq, Repr

/-- The usage triple returned through the AI SDK contract. -/
structure Usage where
  inputTokens : Nat
  outputTokens : Nat
  totalTokens : Nat
deriving DecidableEq, Repr

/-- The zero usage value both engines start from. -/
def Usage.zero : Usage := { inputTokens := 0, outputTokens := 0, totalTokens := 0 }

/-- The usage computation both engines perform on a terminal result event that
carries a usage block (doGenerate lines 335-346, doStream lines 522-533). -/
def computeUsage (raw : RawUsage) : Usage :=
  { inputTokens :=
      (raw.cache_creation_input_tokens.getD 0) +
      (raw.cache_read_input_tokens.getD 0) +
      (raw.input_tokens.getD 0)
    outputTokens := raw.output_tokens.getD 0
    totalTokens :=
      (raw.cache_creation_input_tokens.getD 0) +
      (raw.cache_read_input_tokens.getD 0) +
      (raw.input_tokens.getD 0) +
      (raw.output_tokens.getD 0) }

/-- ASCII whitespace of the JSON grammar (also used to model JS `trim` and the
regex class `\s`; exotic Unicode whitespace is outside the model). -/
def isJsonWs (c : Char) : Bool :=
  c == ' ' || c == '\t' || c == '\n' || c == '\r'

/-- Drops leading JSON whitespace. -/
def skipWs (l : List Char) : List Char := l.dropWhile isJsonWs

/-- Model of JS `String.prototype.trim` (ASCII whitespace). -/
def jsTrim (s : String) : String :=
  String.mk (((s.data.dropWhile isJsonWs).reverse.dropWhile isJsonWs).reverse)

/-- Model of JS `String.prototype.substring(0, n)`. -/
def jsTake (n : Nat) (s : String) : String := String.mk (s.data.take n)

/-- Hexadecimal digit test for JSON `\u` escapes. -/
def isHexCh (c : Char) : Bool :=
  c.isDigit || ('a' ≤ c && c ≤ 'f') || ('A' ≤ c && c ≤ 'F')

/-- Consumes the rest of a JSON string literal (the opening quote already
consumed), returning the remainder after the closing quote. -/
def parseStringRest : Nat → List Char → Option (List Char)
  | 0, _ => none
  | _ + 1, [] => none
  | fuel + 1, c :: rest =>
    if c == '"' then some rest
    else if c == '\\' then
      match rest with
      | [] => none
      | e :: rest2 =>
        if e == '"' || e == '\\' || e == '/' || e == 'b' || e == 'f' ||
            e == 'n' || e == 'r' || e == 't' then
          parseStringRest fuel rest2
        else if e == 'u' then
          match rest2 with
          | h1 :: h2 :: h3 :: h4 :: rest3 =>
            if isHexCh h1 && isHexCh h2 && isHexCh h3 && isHexCh h4 then
              parseStringRest fuel rest3
            else none
          | _ => none
        else none
    else if c.val < 32 then none
    else parseStringRest fuel rest

/-- One-or-more decimal digits, returning the remainder. -/
def parseDigits1 : List Char → Option (List Char)
  | c :: rest => if c.isDigit then some (rest.dropWhile Char.isDigit) else none
  | [] => none

/-- Optional JSON exponent part. -/
def parseExpPart : List Char → Option (List Char)
  | [] => some []
  | c :: rest =>
    if c == 'e' || c == 'E' then
      match rest with
      | s :: rest2 =>
        if s == '+' || s == '-' then parseDigits1 rest2 else parseDigits1 rest
      | [] => none
    else some (c :: rest)

/-- Optional JSON fraction part. -/
def parseFracPart : List Char → Option (List Char)
  | c :: rest => if c == '.' then parseDigits1 rest else some (c :: rest)
  | [] => some []

/-- JSON integer part: `0` alone or a nonzero digit followed by digits. -/
def parseIntPart : List Char → Option (List Char)
  | c :: rest =>
    if c == '0' then some rest
    else if c.isDigit then some (rest.dropWhile Char.isDigit)
    else none
  | [] => none

/-- A complete JSON number. -/
def parseNumber (l : List Char) : Option (List Char) :=
  let l1 := match l with
    | c :: rest => if c == '-' then rest else c :: rest
    | [] => []
  (parseIntPart l1).bind (fun l2 => (parseFracPart l2).bind parseExpPart)

/-- Job tag for the single fuel-indexed recursive descent over the JSON
grammar (avoids mutual recursion). -/
inductive PJob where
  | value
  | objBody
  | members
  | arrBody
  | elements
deriving DecidableEq, Repr

/-- Recursive-descent recogniser for ECMA-404 JSON, the model of
`JSON.parse` succeeding.  Returns the unconsumed remainder on success. -/
def parseRun : Nat → PJob → List Char → Option (List Char)
  | 0, _, _ => none
  | fuel + 1, .value, l =>
    match l with
    | [] => none
    | c :: rest =>
      if c == '{' then parseRun fuel .objBody (skipWs rest)
      else if c == '[' then parseRun fuel .arrBody (skipWs rest)
      else if c == '"' then parseStringRest fuel rest
      else if c == 't' then
        if List.isPrefixOf ['r', 'u', 'e'] rest then some (rest.drop 3) else none
      else if c == 'f' then
        if List.isPrefixOf ['a', 'l', 's', 'e'] rest then some (rest.drop 4) else none
      else if c == 'n' then
        if List.isPrefixOf ['u', 'l', 'l'] rest then some (rest.drop 3) else none
      else parseNumber (c :: rest)
  | fuel + 1, .objBody, l =>
    match l with
    | '}' :: rest => some rest
    | _ => parseRun fuel .members l
  | fuel + 1, .members, l =>
    match l with
    | [] => none
    | c :: rest =>
      if c == '"' then
        (parseStringRest fuel rest).bind (fun l2 =>
          match skipWs l2 with
          | ':' :: l3 =>
            (parseRun fuel .value (skipWs l3)).bind (fun l4 =>
              match skipWs l4 with
              | ',' :: l5 => parseRun fuel .members (skipWs l5)
              | '}' :: l5 => some l5
              | _ => none)
          | _ => none)
      else none
  | fuel + 1, .arrBody, l =>
    match l with
    | ']' :: rest => some rest
    | _ => parseRun fuel .elements l
  | fuel + 1, .elements, l =>
    (parseRun fuel .value l).bind (fun l2 =>
      match skipWs l2 with
      | ',' :: l3 => parseRun fuel .elements (skipWs l3)
      | ']' :: l3 => some l3
      | _ => none)

/-- Whether `JSON.parse` accepts the string (whole input, surrounding
whitespace allowed).  The fuel bound exceeds the depth of any parse. -/
def jsonParseOk (s : String) : Bool :=
  match parseRun (3 * s.length + 9) .value (skipWs s.data) with
  | some rest => (skipWs rest).isEmpty
  | none => false

/-- The backtick character (the markdown fence delimiter). -/
def tickCh : Char := '\x60'

/-- Three backticks: a markdown fence delimiter. -/
def ticks3 : List Char := [tickCh, tickCh, tickCh]

/-- The characters of the optional `json` fence tag. -/
def jsonTag : List Char := ['j', 's', 'o', 'n']

/-- Splits at the first occurrence of three backticks: returns the segment
before it and the remainder after it. -/
def splitAtTicks : List Char → Option (List Char × List Char)
  | [] => none
  | c :: rest =>
    if List.isPrefixOf ticks3 (c :: rest) then some ([], (c :: rest).drop 3)
    else (splitAtTicks rest).map (fun p => (c :: p.1, p.2))

/-- Model of matching the regex of `extractJson`
(three backticks, optional `json` tag, lazy body, three backticks): returns
the raw text between the opener (plus tag) and the earliest closer.  Lazy
matching makes the closer the first later fence; the greedy leading `\s*` and
the trailing `\s*` of the regex only strip whitespace that the subsequent
`.trim()` call in `extractJson` strips anyway, so the raw segment is returned
and trimmed at the use site; `(?:json)?` is safe to consume greedily because
the tag contains no backtick.  A fence with no closer is skipped and the scan
resumes one character later, as the regex engine does. -/
def findFence : List Char → Option (List Char)
  | [] => none
  | c :: rest =>
    if List.isPrefixOf ticks3 (c :: rest) then
      let afterOpen := (c :: rest).drop 3
      let afterTag :=
        if List.isPrefixOf jsonTag afterOpen then afterOpen.drop 4 else afterOpen
      match splitAtTicks afterTag with
      | some p => some p.1
      | none => findFence rest
    else findFence rest

/-- Splits a list at the first occurrence of a character. -/
def firstSplitAt (ch : Char) : List Char → Option (List Char × List Char)
  | [] => none
  | c :: rest =>
    if c == ch then some ([], rest)
    else (firstSplitAt ch rest).map (fun p => (c :: p.1, p.2))

/-- Splits a list at the last occurrence of a character. -/
def lastSplitAt (ch : Char) (l : List Char) : Option (List Char × List Char) :=
  (firstSplitAt ch l.reverse).map (fun p => (p.2.reverse, p.1.reverse))

/-- Model of the greedy span regexes of `extractJson`
(`\x7b[\s\S]*\x7d` and the bracket analogue): the span from the first opener
to the last closer, provided the closer follows the opener. -/
def greedySpan (openCh closeCh : Char) (text : String) : Option String :=
  match firstSplitAt openCh text.data with
  | none => none
  | some p =>
    match lastSplitAt closeCh p.2 with
    | none => none
    | some q => some (String.mk (openCh :: q.1 ++ [closeCh]))

/-- The array-span fallback of `extractJson` (its last extraction attempt
before returning the input unchanged). -/
def extractJsonArr (text : String) : String :=
  match greedySpan '[' ']' text with
  | some candidate => if jsonParseOk candidate then candidate else text
  | none => text

/-- The object-span attempt of `extractJson`, falling back to the array
span and then to the input itself. -/
def extractJsonSpans (text : String) : String :=
  match greedySpan '{' '}' text with
  | some candidate => if jsonParseOk candidate then candidate else extractJsonArr text
  | none => extractJsonArr text

/-- The `extractJson` function of `extract-json.ts`.  The leading
`if (!text || typeof text !== 'string') return text` guard needs no separate
case: an empty string fails every candidate below and is returned unchanged.
The fenced-block branch requires the raw capture to be truthy
(`codeBlockMatch[1]`); since the capture carries no surrounding whitespace,
that is exactly the trimmed content being nonempty. -/
def extractJson (text : String) : String :=
  if jsonParseOk text then text
  else
    match findFence text.data with
    | some inner =>
      let content := jsTrim (String.mk inner)
      if content != "" && jsonParseOk content then content
      else extractJsonSpans text
    | none => extractJsonSpans text

/-- JS `Array.prototype.join(sep)` (also `''.join`-style concatenation). -/
def joinWith (sep : String) : List String → String
  | [] => ""
  | [x] => x
  | x :: y :: rest => x ++ sep ++ joinWith sep (y :: rest)

/-- An `image` content value of a user message part. -/
inductive ImageVal where
  | strVal (s : String)
  | objUrl (url : String)
  | objB64
  | objOther
deriving DecidableEq, Repr

/-- A content part of a user message in the AI SDK v2 prompt. -/
inductive UserPart where
  | text (t : String)
  | image (img : ImageVal)
  | otherPart
deriving DecidableEq, Repr

/-- A content part of an assistant message; tool-call arguments are kept in
their JSON-serialised form (`JSON.stringify(p.args)`), absent when falsy. -/
inductive AsstPart where
  | text (t : String)
  | toolCall (toolName : String) (argsJson : Option String)
  | otherPart
deriving DecidableEq, Repr

/-- A tool-result value: a plain string is used as-is, anything else is kept
as its `JSON.stringify` serialisation. -/
inductive ToolResultVal where
  | strVal (s : String)
  | jsonVal (serialized : String)
deriving DecidableEq, Repr

/-- A content part of a tool message. -/
inductive ToolPart where
  | toolResult (toolName : String) (result : ToolResultVal)
  | otherPart
deriving DecidableEq, Repr

/-- One message of the `LanguageModelV2Prompt` wire contract.  Per that
contract a system message's `content` is a plain string, while user,
assistant and tool messages carry arrays of typed parts. -/
inductive PromptMessage where
  | system (content : String)
  | user (content : List UserPart)
  | assistant (content : List AsstPart)
  | tool (content : List ToolPart)
deriving DecidableEq, Repr

/-- The `responseFormat` call option; a JSON schema is kept in its
`JSON.stringify` serialisation. -/
inductive RespFormat where
  | text
  | json (schema : Option String)
deriving DecidableEq, Repr

/-- The system-message branch of `convertToAmpMessages`:
`for (const part of message.content)` iterates the content *string* of the
v2 wire contract code point by code point, and each code point satisfies
`typeof part === 'string'`, so one `System: <char>` entry is pushed per
character of the system text. -/
def renderSystemChars (content : String) : List String :=
  content.data.map (fun c => "System: " ++ String.mk [c])

/-- The user-message part rendering of `convertToAmpMessages`. -/
def renderUserParts : List UserPart → List String
  | [] => []
  | .text t :: rest => t :: renderUserParts rest
  | .image (.strVal s) :: rest =>
      ("[Image: " ++ jsTake 50 s ++ "...]") :: renderUserParts rest
  | .image (.objUrl u) :: rest =>
      ("[Image URL: " ++ u ++ "]") :: renderUserParts rest
  | .image .objB64 :: rest => "[Image: base64 data]" :: renderUserParts rest
  | .image .objOther :: rest => renderUserParts rest
  | .otherPart :: rest => renderUserParts rest

/-- The assistant-message part rendering of `convertToAmpMessages`
(`p.args || \x7b\x7d` makes absent arguments serialise as an empty object). -/
def renderAsstParts : List AsstPart → List String
  | [] => []
  | .text t :: rest => t :: renderAsstParts rest
  | .toolCall name args :: rest =>
      ("[Tool Call: " ++ name ++ " with args " ++ args.getD ("\x7b\x7d") ++ "]")
        :: renderAsstParts rest
  | .otherPart :: rest => renderAsstParts rest

/-- The tool-message part rendering of `convertToAmpMessages`. -/
def renderToolParts : List ToolPart → List String
  | [] => []
  | .toolResult name (.strVal s) :: rest =>
      ("Tool Result (" ++ name ++ "): " ++ s) :: renderToolParts rest
  | .toolResult name (.jsonVal s) :: rest =>
      ("Tool Result (" ++ name ++ "): " ++ s) :: renderToolParts rest
  | .otherPart :: rest => renderToolParts rest

/-- The entries `convertToAmpMessages` pushes for a single message. -/
def renderMessage : PromptMessage → List String
  | .system content => renderSystemChars content
  | .user parts =>
    let ps := renderUserParts parts
    if ps.isEmpty then [] else [joinWith "\n" ps]
  | .assistant parts =>
    let ps := renderAsstParts parts
    if ps.isEmpty then [] else ["Assistant: " ++ joinWith "\n" ps]
  | .tool parts => renderToolParts parts

/-- The fixed JSON-mode instruction of `convertToAmpMessages`. -/
def jsonModeIntro : String :=
  "IMPORTANT: You must respond with ONLY valid JSON. Do not include any explanatory text, markdown formatting, or code blocks. Return ONLY the raw JSON object."

/-- The entries pushed before the conversation when JSON mode is requested. -/
def jsonPreamble : Option RespFormat → List String
  | some (.json schema) =>
    jsonModeIntro ::
      (match schema with
       | some s => ["\nThe JSON must match this schema: " ++ s, ""]
       | none => [""])
  | _ => []

/-- `convertToAmpMessages` of `convert-to-amp-messages.ts`. -/
def convertToAmpMessages (prompt : List PromptMessage)
    (responseFormat : Option RespFormat) : String :=
  joinWith "\n\n" (jsonPreamble responseFormat ++ (prompt.map renderMessage).flatten)

/-- An AI SDK call warning. -/
inductive Warning where
  | unsupportedSetting (setting : String)
  | other (message : String)
deriving DecidableEq, Repr

/-- `validateModelId` of `validation.ts`. -/
def validateModelId (modelId : String) : Option String :=
  if modelId == "" || jsTrim modelId == "" then
    some ("Model ID must be a non-empty string")
  else none

/-- The 500 000-character prompt limit of `validatePrompt`. -/
def maxPromptLength : Nat := 500000

/-- `validatePrompt` of `validation.ts`. -/
def validatePrompt (prompt : String) : Option String :=
  if prompt == "" then some ("Prompt must be a non-empty string")
  else if prompt.length > maxPromptLength then
    some ("Prompt exceeds maximum length of " ++ toString maxPromptLength ++
      " characters (got " ++ toString prompt.length ++ ")")
  else none

/-- Result of `validateSettings`. -/
structure ValidationResult where
  valid : Bool
  errors : List String
  warnings : List String
deriving DecidableEq, Repr

/-- The accepted log levels of `validateSettings`. -/
def validLogLevels : List String := ["debug", "info", "warn", "error", "audit"]

/-- `validateSettings` of `validation.ts`; errors are accumulated in the
source's push order. -/
def validateSettings (settings : AmpSettings) : ValidationResult :=
  let errors :=
    (match settings.maxTurns with
     | some m => if m < 1 then ["maxTurns must be a positive integer"] else []
     | none => []) ++
    (match settings.cwd with
     | some c => if jsTrim c == "" then ["cwd must be a non-empty string"] else []
     | none => []) ++
    (match settings.logLevel with
     | some lv =>
       if validLogLevels.contains lv then []
       else ["logLevel must be one of: " ++ joinWith ", " validLogLevels]
     | none => []) ++
    (if jsTruthyBS settings.continueOpt && jsTruthyStr settings.resume then
       ["continue and resume cannot be used together"]
     else []) ++
    (match settings.permissions with
     | some .nonArray => ["permissions must be an array"]
     | _ => [])
  let warnings :=
    if settings.verbose == some true && settings.logger == some .disabled then
      ["verbose is enabled but logger is disabled, no logs will be output"]
    else []
  { valid := errors.isEmpty, errors := errors, warnings := warnings }

/-- The generic call options handed to `doGenerate` / `doStream`; for the
unsupported sampling parameters only presence matters, so they are modelled
as `Option Unit`.  The abort signal is threading-only and not modelled. -/
structure CallOptions where
  promptMsgs : List PromptMessage := []
  responseFormat : Option RespFormat := none
  temperature : Option Unit := none
  topP : Option Unit := none
  topK : Option Unit := none
  presencePenalty : Option Unit := none
  frequencyPenalty : Option Unit := none
  stopSequences : Option (List String) := none
  seed : Option Unit := none
deriving DecidableEq, Repr

/-- The unsupported-parameter scan of `generateAllWarnings`, in push order. -/
def unsupportedParamsOf (o : CallOptions) : List String :=
  (if o.temperature.isSome then ["temperature"] else []) ++
  (if o.topP.isSome then ["topP"] else []) ++
  (if o.topK.isSome then ["topK"] else []) ++
  (if o.presencePenalty.isSome then ["presencePenalty"] else []) ++
  (if o.frequencyPenalty.isSome then ["frequencyPenalty"] else []) ++
  (match o.stopSequences with
   | some l => if l.length > 0 then ["stopSequences"] else []
   | none => []) ++
  (if o.seed.isSome then ["seed"] else [])

/-- The per-instance state of an `AmpLanguageModel`: id, settings, warnings
computed at construction, and the remembered session id cell. -/
structure ModelState where
  modelId : String
  settings : AmpSettings
  settingsValidationWarnings : List String
  modelValidationWarning : Option String
  sessionId : Option String
deriving DecidableEq, Repr

/-- `AmpLanguageModel.generateAllWarnings`. -/
def generateAllWarnings (m : ModelState) (o : CallOptions) (prompt : String) :
    List Warning :=
  (unsupportedParamsOf o).map Warning.unsupportedSetting ++
  m.settingsValidationWarnings.map Warning.other ++
  (match m.modelValidationWarning with
   | some w => [Warning.other w]
   | none => []) ++
  (match validatePrompt prompt with
   | some w => [Warning.other w]
   | none => [])

/-- `AmpErrorMetadata` of `errors.ts` (the `requestBodyValues` payload). -/
structure AmpErrorMetadata where
  originalError : Option String := none
  prompt : Option String := none
  sessionId : Option String := none
  durationMs : Option Nat := none
  numTurns : Option Nat := none
deriving DecidableEq, Repr

/-- An `APICallError` as produced by `errors.ts`: message, fixed url,
metadata in `requestBodyValues`, optional status code, optional cause. -/
inductive AmpError where
  | mk (message : String) (url : String) (requestBodyValues : AmpErrorMetadata)
      (statusCode : Option Nat) (cause : Option AmpError)

/-- The message of an error. -/
def AmpError.message : AmpError → String
  | .mk m _ _ _ _ => m

/-- The metadata (`requestBodyValues`) of an error. -/
def AmpError.requestBodyValues : AmpError → AmpErrorMetadata
  | .mk _ _ v _ _ => v

/-- The status code of an error. -/
def AmpError.statusCode : AmpError → Option Nat
  | .mk _ _ _ st _ => st

/-- The cause of an error. -/
def AmpError.cause : AmpError → Option AmpError
  | .mk _ _ _ _ c => c

/-- `createAPICallError` of `errors.ts`. -/
def createAPICallError (message : String) (cause : Option AmpError)
    (metadata : AmpErrorMetadata) : AmpError :=
  .mk message "amp-sdk" metadata none cause

/-- The remediation text `createAuthenticationError` appends. -/
def authRemediation : String :=
  "\n\nTo authenticate with Amp, you can either:\n1. Set AMP_API_KEY environment variable: export AMP_API_KEY=sgamp_your_key\n2. Run \x27amp login\x27 to store credentials locally\n\nGet your API key from https://ampcode.com/settings"

/-- `createAuthenticationError` of `errors.ts`: enhanced message, empty
metadata, status 401. -/
def createAuthenticationError (message : String) (cause : Option AmpError) :
    AmpError :=
  .mk (message ++ authRemediation) "amp-sdk" {} (some 401) cause

/-- Whether `needle` occurs as a contiguous segment of the list. -/
def listHasInfix (needle : List Char) : List Char → Bool
  | [] => List.isPrefixOf needle []
  | c :: t => List.isPrefixOf needle (c :: t) || listHasInfix needle t

/-- JS `String.prototype.includes`. -/
def strIncludes (hay needle : String) : Bool := listHasInfix needle.data hay.data

/-- ASCII lower-casing of one character (the classifier's keywords are all
ASCII, so this suffices to model `String.prototype.toLowerCase`). -/
def lowerCh (c : Char) : Char :=
  if 'A' ≤ c && c ≤ 'Z' then Char.ofNat (c.toNat + 32) else c

/-- Model of JS `String.prototype.toLowerCase` (ASCII). -/
def jsToLower (s : String) : String := String.mk (s.data.map lowerCh)

/-- The authentication markers `handleAmpError` looks for. -/
def authKeywords : List String :=
  ["unauthorized", "authentication", "api key", "not authenticated", "login required"]

/-- `AmpLanguageModel.handleAmpError`: string-pattern classification of a
caught error into an authentication error or a generic call error carrying
the original message, a 100-character prompt excerpt, and the original error
as cause. -/
def handleAmpError (error : AmpError) (prompt : String) : AmpError :=
  let message := jsToLower (AmpError.message error)
  if authKeywords.any (fun k => strIncludes message k) then
    createAuthenticationError ("Amp authentication failed.") (some error)
  else
    createAPICallError (AmpError.message error) (some error)
      { originalError := some (AmpError.message error)
        prompt := some (jsTake 100 prompt) }

/-- A terminal result event of the external agent. -/
structure AmpResult where
  session_id : String
  duration_ms : Option Nat := none
  num_turns : Option Nat := none
  is_error : Bool := false
  errorVal : Option String := none
  usage : Option RawUsage := none
  total_cost_usd : Option Nat := none
  subtype : Option String := none
deriving DecidableEq, Repr

/-- A content part of an assistant event (`c.type === 'text' ? c.text : ''`). -/
inductive AmpContentPart where
  | textPart (text : String)
  | otherPart
deriving DecidableEq, Repr

/-- One event of the external agent's stream: initialization
(`type 'system'`, `subtype 'init'`), assistant content (whose `content`
array may be absent), terminal result, or anything else (skipped). -/
inductive AmpMessage where
  | sysInit (session_id : String)
  | assistantMsg (content : Option (List AmpContentPart))
  | resultMsg (r : AmpResult)
  | otherMsg
deriving DecidableEq, Repr

/-- The text of an assistant event:
`content.map(c => c.type === 'text' ? c.text : '').join('')`. -/
def assistantText (parts : List AmpContentPart) : String :=
  joinWith "" (parts.map (fun p =>
    match p with
    | .textPart t => t
    | .otherPart => ""))

/-- The error message taken from an error-marked result event
(`'error' in message ? String(message.error) : 'Unknown error'`). -/
def resultErrorMsg (r : AmpResult) : String := r.errorVal.getD ("Unknown error")

/-- The error `doGenerate` throws on an error-marked result event
(lines 360-370): metadata carries the failure detail, a prompt excerpt,
session id, duration, and turn count. -/
def genResultError (r : AmpResult) (prompt : String) : AmpError :=
  createAPICallError (resultErrorMsg r) none
    { originalError := some (resultErrorMsg r)
      prompt := some (jsTake 100 prompt)
      sessionId := some r.session_id
      durationMs := r.duration_ms
      numTurns := r.num_turns }

/-- The error `doStream` throws on an error-marked result event
(lines 579-588); its metadata has no prompt excerpt. -/
def streamResultError (r : AmpResult) : AmpError :=
  createAPICallError (resultErrorMsg r) none
    { originalError := some (resultErrorMsg r)
      sessionId := some r.session_id
      durationMs := r.duration_ms
      numTurns := r.num_turns }

/-- The mutable locals of the `doGenerate` event loop, plus the adapter's
remembered session id cell. -/
structure GenState where
  accumulatedText : String
  usage : Usage
  finishReason : FinishReason
  sessionIdResp : Option String
  costUsd : Option Nat
  durationMs : Option Nat
  adapterSid : Option String
deriving DecidableEq, Repr

/-- The initial loop state of a `doGenerate` call. -/
def initGenState (adapterSid : Option String) : GenState :=
  { accumulatedText := "", usage := Usage.zero, finishReason := .unknown,
    sessionIdResp := none, costUsd := none, durationMs := none,
    adapterSid := adapterSid }

/-- Outcome of the `doGenerate` event loop: ran to completion, or threw. -/
inductive GenLoopOut where
  | done (st : GenState)
  | thrown (e : AmpError) (adapterSid : Option String)

/-- The `for await` loop of `doGenerate` (lines 292-373): consumes events in
order, accumulates assistant text, records session ids first-write-wins,
extracts usage/cost/duration and the finish reason from a successful result,
and throws on an error-marked result. -/
def genLoop (prompt : String) (st : GenState) : List AmpMessage → GenLoopOut
  | [] => .done st
  | .sysInit sid :: rest =>
    genLoop prompt
      { st with adapterSid := setSessionId st.adapterSid sid,
                sessionIdResp := some sid } rest
  | .assistantMsg content :: rest =>
    let text := match content with
      | some parts => assistantText parts
      | none => ""
    let st1 :=
      if text != "" then { st with accumulatedText := st.accumulatedText ++ text }
      else st
    genLoop prompt st1 rest
  | .resultMsg r :: rest =>
    let st1 := { st with sessionIdResp := some r.session_id,
                         adapterSid := setSessionId st.adapterSid r.session_id,
                         durationMs := r.duration_ms }
    if r.is_error then .thrown (genResultError r prompt) st1.adapterSid
    else
      let st2 := { st1 with
        usage := match r.usage with
          | some u => computeUsage u
          | none => st1.usage
        costUsd := match r.total_cost_usd with
          | some c => some c
          | none => st1.costUsd
        finishReason := mapAmpFinishReason r.subtype }
      genLoop prompt st2 rest
  | .otherMsg :: rest => genLoop prompt st rest

/-- The structured result a successful `doGenerate` returns. -/
structure GenResult where
  text : String
  finishReason : FinishReason
  usage : Usage
  warnings : List Warning
  requestBody : String
  metaSessionId : Option String
  metaCostUsd : Option Nat
  metaDurationMs : Option Nat
deriving DecidableEq, Repr

/-- Everything observable about one `doGenerate` call: its result or thrown
error, the invocation options and prompt handed to the external agent, and
the adapter's remembered session id after the call. -/
structure GenOutcome where
  result : Except AmpError GenResult
  invokedOptions : AmpOptions
  invokedPrompt : String
  finalSid : Option String

/-- The JSON-mode post-processing of `doGenerate` (lines 376-388): on a
non-empty accumulated text, replace it by the extracted candidate when that
candidate parses, otherwise append a warning and keep the text. -/
def jsonPostProcess (responseFormat : Option RespFormat) (acc : String)
    (warnings : List Warning) : String × List Warning :=
  match responseFormat with
  | some (.json _) =>
    if acc != "" then
      let extracted := extractJson acc
      if jsonParseOk extracted then (extracted, warnings)
      else (acc, warnings ++ [Warning.other ("Failed to extract valid JSON from response")])
    else (acc, warnings)
  | _ => (acc, warnings)

/-- `AmpLanguageModel.doGenerate`.  The external agent is modelled by the
event list it yields plus an optional error its iterator throws after the
last yielded event (`iterFailure`); a mid-stream failure is the truncated
event list with that failure attached. -/
def doGenerate (m : ModelState) (o : CallOptions) (events : List AmpMessage)
    (iterFailure : Option AmpError) : GenOutcome :=
  let messagesPrompt := convertToAmpMessages o.promptMsgs o.responseFormat
  let warnings := generateAllWarnings m o messagesPrompt
  let ampOptions := mkAmpOptions m.settings m.sessionId
  match genLoop messagesPrompt (initGenState m.sessionId) events with
  | .thrown e sid =>
    { result := .error (handleAmpError e messagesPrompt)
      invokedOptions := ampOptions
      invokedPrompt := messagesPrompt
      finalSid := sid }
  | .done st =>
    match iterFailure with
    | some e =>
      { result := .error (handleAmpError e messagesPrompt)
        invokedOptions := ampOptions
        invokedPrompt := messagesPrompt
        finalSid := st.adapterSid }
    | none =>
      let tw := jsonPostProcess o.responseFormat st.accumulatedText warnings
      { result := .ok
          { text := tw.1
            finishReason := st.finishReason
            usage := st.usage
            warnings := tw.2
            requestBody := messagesPrompt
            metaSessionId := st.sessionIdResp
            metaCostUsd := st.costUsd
            metaDurationMs := st.durationMs }
        invokedOptions := ampOptions
        invokedPrompt := messagesPrompt
        finalSid := st.adapterSid }

/-- One stream part of the AI SDK streaming contract as emitted by
`doStream`; `generateId()` values are modelled by a counter, and the
response-metadata timestamp (wall-clock) is not modelled. -/
inductive StreamPart where
  | streamStart (warnings : List Warning)
  | responseMetadata (id : String) (modelId : String)
  | textStart (id : Nat)
  | textDelta (id : Nat) (delta : String)
  | textEnd (id : Nat)
  | finish (finishReason : FinishReason) (usage : Usage) (metaSessionId : String)
      (metaCostUsd : Option Nat) (metaDurationMs : Option Nat)
  | errorPart (e : AmpError)

/-- The mutable locals of the `doStream` event loop. -/
structure StState where
  accumulatedText : String
  textPartId : Option Nat
  nextId : Nat
  usage : Usage
  adapterSid : Option String

/-- Outcome of the `doStream` event loop: emitted parts, an error thrown
mid-loop if any, and the adapter's remembered session id afterwards. -/
structure StOut where
  parts : List StreamPart
  thrown : Option AmpError
  finalSid : Option String

/-- The `for await` loop of the `doStream` ReadableStream (lines 465-591):
emits response metadata on initialization, streams text deltas (opening a
text part lazily, and not at all in JSON mode), and on a successful result
closes the text part (or emits the extracted-JSON triple in JSON mode)
followed by the finish part; an error-marked result throws. -/
def streamLoop (jsonMode : Bool) (modelId : String) (st : StState) :
    List AmpMessage → StOut
  | [] => { parts := [], thrown := none, finalSid := st.adapterSid }
  | .sysInit sid :: rest =>
    let st1 := { st with adapterSid := setSessionId st.adapterSid sid }
    let out := streamLoop jsonMode modelId st1 rest
    { out with parts := .responseMetadata sid modelId :: out.parts }
  | .assistantMsg content :: rest =>
    let text := match content with
      | some parts => assistantText parts
      | none => ""
    if text != "" then
      let st1 := { st with accumulatedText := st.accumulatedText ++ text }
      if jsonMode then streamLoop jsonMode modelId st1 rest
      else
        match st.textPartId with
        | some tid =>
          let out := streamLoop jsonMode modelId st1 rest
          { out with parts := .textDelta tid text :: out.parts }
        | none =>
          let tid := st.nextId
          let st2 := { st1 with textPartId := some tid, nextId := st.nextId + 1 }
          let out := streamLoop jsonMode modelId st2 rest
          { out with parts := .textStart tid :: .textDelta tid text :: out.parts }
    else streamLoop jsonMode modelId st rest
  | .resultMsg r :: rest =>
    let st1 := { st with adapterSid := setSessionId st.adapterSid r.session_id }
    if r.is_error then
      { parts := [], thrown := some (streamResultError r), finalSid := st1.adapterSid }
    else
      let st2 := { st1 with
        usage := match r.usage with
          | some u => computeUsage u
          | none => st1.usage }
      let jsonEmit := jsonMode && st2.accumulatedText != ""
      let closing :=
        if jsonEmit then
          [StreamPart.textStart st2.nextId,
           StreamPart.textDelta st2.nextId (extractJson st2.accumulatedText),
           StreamPart.textEnd st2.nextId]
        else
          match st2.textPartId with
          | some tid => [StreamPart.textEnd tid]
          | none => []
      let st3 := if jsonEmit then { st2 with nextId := st2.nextId + 1 } else st2
      let finPart := StreamPart.finish (mapAmpFinishReason r.subtype) st3.usage
        r.session_id r.total_cost_usd r.duration_ms
      let out := streamLoop jsonMode modelId st3 rest
      { out with parts := closing ++ finPart :: out.parts }
  | .otherMsg :: rest => streamLoop jsonMode modelId st rest

/-- Everything observable about one `doStream` call: the full part sequence
of its stream, the request echo, the invocation options and prompt handed to
the external agent, and the remembered session id after the stream runs. -/
structure StreamOutcome where
  parts : List StreamPart
  requestBody : String
  invokedOptions : AmpOptions
  invokedPrompt : String
  finalSid : Option String

/-- Whether a response format requests JSON. -/
def isJsonFormat : Option RespFormat → Bool
  | some (.json _) => true
  | _ => false

/-- `AmpLanguageModel.doStream`, with the external agent modelled as for
`doGenerate`.  The stream always begins with the stream-start part; any
error thrown inside the loop (error-marked result) or by the iterator after
its last event is classified and emitted as a single trailing error part,
after which the stream closes. -/
def doStream (m : ModelState) (o : CallOptions) (events : List AmpMessage)
    (iterFailure : Option AmpError) : StreamOutcome :=
  let messagesPrompt := convertToAmpMessages o.promptMsgs o.responseFormat
  let warnings := generateAllWarnings m o messagesPrompt
  let ampOptions := mkAmpOptions m.settings m.sessionId
  let st0 : StState := { accumulatedText := "", textPartId := none, nextId := 0,
                         usage := Usage.zero, adapterSid := m.sessionId }
  let out := streamLoop (isJsonFormat o.responseFormat) m.modelId st0 events
  let tailParts :=
    match out.thrown with
    | some e => [StreamPart.errorPart (handleAmpError e messagesPrompt)]
    | none =>
      match iterFailure with
      | some e => [StreamPart.errorPart (handleAmpError e messagesPrompt)]
      | none => []
  { parts := StreamPart.streamStart warnings :: (out.parts ++ tailParts)
    requestBody := messagesPrompt
    invokedOptions := ampOptions
    invokedPrompt := messagesPrompt
    finalSid := out.finalSid }

/-- All-absent settings (`\x7b\x7d` in the source). -/
def emptySettings : AmpSettings := {}

/-- The settings merge of `createModel`:
`\x7b...options.defaultSettings, ...settings\x7d`, field-wise (a field absent
from the model-level settings falls back to the provider default). -/
def mergeSettings (defaults overrides : AmpSettings) : AmpSettings :=
  { cwd := overrides.cwd <|> defaults.cwd
    dangerouslyAllowAll := overrides.dangerouslyAllowAll <|> defaults.dangerouslyAllowAll
    continueOpt := overrides.continueOpt <|> defaults.continueOpt
    resume := overrides.resume <|> defaults.resume
    maxTurns := overrides.maxTurns <|> defaults.maxTurns
    logLevel := overrides.logLevel <|> defaults.logLevel
    logFile := overrides.logFile <|> defaults.logFile
    mcpConfig := overrides.mcpConfig <|> defaults.mcpConfig
    env := overrides.env <|> defaults.env
    toolbox := overrides.toolbox <|> defaults.toolbox
    permissions := overrides.permissions <|> defaults.permissions
    verbose := overrides.verbose <|> defaults.verbose
    logger := overrides.logger <|> defaults.logger }

/-- A provider instance as produced by `createAmp`. -/
structure AmpProviderState where
  defaultSettings : Option AmpSettings
deriving DecidableEq, Repr

/-- `createAmp` of `amp-provider.ts`: validates the default settings (when
supplied) and throws on invalid ones; a throw is modelled as `Except.error`
carrying the thrown message. -/
def createAmp (defaultSettings : Option AmpSettings) :
    Except String AmpProviderState :=
  match defaultSettings with
  | some d =>
    let validation := validateSettings d
    if !validation.valid then
      .error ("Invalid default settings: " ++ joinWith ", " validation.errors)
    else .ok { defaultSettings := some d }
  | none => .ok { defaultSettings := none }

/-- The `AmpLanguageModel` constructor (lines 105-127): throws
`NoSuchModelError` on an empty or blank model id, otherwise records the
settings, the settings warnings, and the model-id warning. -/
def constructModel (modelId : String) (settings : AmpSettings)
    (settingsWarnings : List String) : Except String ModelState :=
  if modelId == "" || jsTrim modelId == "" then
    .error ("NoSuchModelError: " ++ modelId)
  else
    .ok { modelId := modelId, settings := settings,
          settingsValidationWarnings := settingsWarnings,
          modelValidationWarning := validateModelId modelId,
          sessionId := none }

/-- The `createModel` closure of `createAmp`: merges provider defaults with
model-level settings, validates the merge (throwing on errors), and only
then constructs the model instance. -/
def createModel (provider : AmpProviderState) (modelId : String)
    (settings : Option AmpSettings) : Except String ModelState :=
  let mergedSettings :=
    mergeSettings (provider.defaultSettings.getD emptySettings)
      (settings.getD emptySettings)
  let validation := validateSettings mergedSettings
  if !validation.valid then
    .error ("Invalid settings: " ++ joinWith ", " validation.errors)
  else constructModel modelId mergedSettings validation.warnings

/-- The default provider instance `amp` (`createAmp()` with no options). -/
def ampDefault : Except String AmpProviderState := createAmp none

/-- The remembered session id a `doGenerate` event loop leaves behind. -/
def genLoopFinalSid : GenLoopOut → Option String
  | .done st => st.adapterSid
  | .thrown _ sid => sid

/-- The usage a successful `doGenerate` call reports, `none` on a throw. -/
def GenOutcome.okUsage (g : GenOutcome) : Option Usage :=
  match g.result with
  | .ok r => some r.usage
  | .error _ => none

/-- The error a failed `doGenerate` call throws, `none` on success. -/
def GenOutcome.thrownError (g : GenOutcome) : Option AmpError :=
  match g.result with
  | .ok _ => none
  | .error e => some e

/-- Whether any result event occurs in an event list. -/
def hasResult : List AmpMessage → Bool
  | [] => false
  | .resultMsg _ :: _ => true
  | _ :: rest => hasResult rest

/-- The first error-marked result event of an event list, if any: the event
that makes either engine throw. -/
def firstErrorResult : List AmpMessage → Option AmpResult
  | [] => none
  | .resultMsg r :: rest => if r.is_error then some r else firstErrorResult rest
  | _ :: rest => firstErrorResult rest

/-- Whether any assistant-content event occurs in an event list. -/
def hasAssistant : List AmpMessage → Bool
  | [] => false
  | .assistantMsg _ :: _ => true
  | _ :: rest => hasAssistant rest

/-- Recogniser for error stream parts. -/
def isErrorPart : StreamPart → Bool
  | .errorPart _ => true
  | _ => false

/-- Recogniser for finish stream parts. -/
def isFinishPart : StreamPart → Bool
  | .finish _ _ _ _ _ => true
  | _ => false

/-- Recogniser for text-end stream parts. -/
def isTextEndPart : StreamPart → Bool
  | .textEnd _ => true
  | _ => false

theorem setSessionId_of_some (v : String) (s : String) :
    setSessionId (some v) s = some v := by
  simp [setSessionId]

theorem genLoop_sid_frozen (prompt : String) (v : String) :
    ∀ (events : List AmpMessage) (st : GenState), st.adapterSid = some v →
      genLoopFinalSid (genLoop prompt st events) = some v := by
  intro events
  induction events with
  | nil => intro st h; simp [genLoop, genLoopFinalSid, h]
  | cons e rest ih =>
    intro st h
    cases e with
    | sysInit sid =>
      apply ih
      simp [h, setSessionId_of_some]
    | assistantMsg content =>
      apply ih
      split <;> simp [h]
    | resultMsg r =>
      simp only [genLoop]
      split
      · simp [genLoopFinalSid, h, setSessionId_of_some]
      · apply ih; simp [h, setSessionId_of_some]
    | otherMsg => exact ih st h

theorem doGenerate_finalSid (m : ModelState) (o : CallOptions)
    (events : List AmpMessage) (f : Option AmpError) :
    (doGenerate m o events f).finalSid =
      genLoopFinalSid
        (genLoop (convertToAmpMessages o.promptMsgs o.responseFormat)
          (initGenState m.sessionId) events) := by
  unfold doGenerate
  cases hg : genLoop (convertToAmpMessages o.promptMsgs o.responseFormat)
      (initGenState m.sessionId) events with
  | done st => cases f <;> simp [hg, genLoopFinalSid]
  | thrown e sid => simp [hg, genLoopFinalSid]

theorem streamLoop_sid_frozen (jm : Bool) (mid : String) (v : String) :
    ∀ (events : List AmpMessage) (st : StState), st.adapterSid = some v →
      (streamLoop jm mid st events).finalSid = some v := by
  intro events
  induction events with
  | nil => intro st h; simp [streamLoop, h]
  | cons e rest ih =>
    intro st h
    cases e with
    | sysInit sid =>
      simp only [streamLoop]
      apply ih
      simp [h, setSessionId_of_some]
    | assistantMsg content =>
      simp only [streamLoop]
      split
      · split
        · apply ih; simp [h]
        · split <;> (apply ih; simp [h])
      · exact ih st h
    | resultMsg r =>
      simp only [streamLoop]
      split
      · simp [h, setSessionId_of_some]
      · apply ih; split <;> simp [h, setSessionId_of_some]
    | otherMsg => exact ih st h

theorem doStream_finalSid_frozen (m : ModelState) (o : CallOptions)
    (events : List AmpMessage) (f : Option AmpError) (v : String)
    (h : m.sessionId = some v) :
    (doStream m o events f).finalSid = some v := by
  unfold doStream
  exact streamLoop_sid_frozen _ _ v events _ h

/-- C1: the continuation directive built into the invocation options by both
`doGenerate` and `doStream` is unset whenever the continue flag is falsy or
absent (even when a session id is remembered); when the flag is truthy it is
the explicit resume id if present, else the remembered session id (so with
both a resume id and a remembered id, the resume id wins), else unset. -/
theorem continue_directive_resolution (m : ModelState) (o : CallOptions)
    (events : List AmpMessage) (f : Option AmpError) :
    (jsTruthyBS m.settings.continueOpt = false →
      (doGenerate m o events f).invokedOptions.continueDir = none ∧
      (doStream m o events f).invokedOptions.continueDir = none) ∧
    (∀ r, jsTruthyBS m.settings.continueOpt = true → m.settings.resume = some r →
      (doGenerate m o events f).invokedOptions.continueDir = some r ∧
      (doStream m o events f).invokedOptions.continueDir = some r) ∧
    (jsTruthyBS m.settings.continueOpt = true → m.settings.resume = none →
      (doGenerate m o events f).invokedOptions.continueDir = m.sessionId ∧
      (doStream m o events f).invokedOptions.continueDir = m.sessionId) := by
  have hg : (doGenerate m o events f).invokedOptions =
      mkAmpOptions m.settings m.sessionId := by
    unfold doGenerate
    cases hl : genLoop (convertToAmpMessages o.promptMsgs o.responseFormat)
        (initGenState m.sessionId) events with
    | done st => cases f <;> simp [hl]
    | thrown e sid => simp [hl]
  have hs : (doStream m o events f).invokedOptions =
      mkAmpOptions m.settings m.sessionId := by
    rfl
  refine ⟨fun hfl => ?_, fun r htr hre => ?_, fun htr hre => ?_⟩
  · rw [hg, hs]; simp [mkAmpOptions, hfl]
  · rw [hg, hs]; simp [mkAmpOptions, htr, hre]
  · rw [hg, hs]; simp [mkAmpOptions, htr, hre]

/-- C1 witness: with the continue flag set, an explicit resume id `B`, and a
remembered session id `A`, both engines place `B` in the invocation options. -/
theorem continue_directive_resolution_witness :
    (doGenerate
        { modelId := "default"
          settings := { continueOpt := some (.bool true), resume := some ("B") }
          settingsValidationWarnings := []
          modelValidationWarning := none
          sessionId := some ("A") }
        {} [] none).invokedOptions.continueDir = some ("B") ∧
    (doStream
        { modelId := "default"
          settings := { continueOpt := some (.bool true), resume := some ("B") }
          settingsValidationWarnings := []
          modelValidationWarning := none
          sessionId := some ("A") }
        {} [] none).invokedOptions.continueDir = some ("B") :=
  (continue_directive_resolution _ _ _ _).2.1 ("B") rfl rfl

/-- C2: the remembered session id of an adapter instance is write-once — once
it holds a value, no later `doGenerate` or `doStream` call changes it,
whatever session ids the events of those calls report. -/
theorem session_id_write_once (m : ModelState) (v : String) (o : CallOptions)
    (events : List AmpMessage) (f : Option AmpError) (h : m.sessionId = some v) :
    (doGenerate m o events f).finalSid = some v ∧
    (doStream m o events f).finalSid = some v := by
  constructor
  · rw [doGenerate_finalSid]
    exact genLoop_sid_frozen _ v events _ h
  · exact doStream_finalSid_frozen m o events f v h

/-- C2 witness: a first call reporting session id `A` records `A`; a second
call on the resulting instance reporting a different id `B` (in both its
init and terminal events) leaves the remembered id equal to `A`. -/
theorem session_id_write_once_witness :
    (doGenerate
        { modelId := "default", settings := {}, settingsValidationWarnings := [],
          modelValidationWarning := none, sessionId := none }
        {}
        [.sysInit ("A"), .resultMsg { session_id := "A", subtype := some ("success") }]
        none).finalSid = some ("A") ∧
    (doGenerate
        { modelId := "default", settings := {}, settingsValidationWarnings := [],
          modelValidationWarning := none, sessionId := some ("A") }
        {}
        [.sysInit ("B"), .resultMsg { session_id := "B", subtype := some ("success") }]
        none).finalSid = some ("A") ∧
    (doStream
        { modelId := "default", settings := {}, settingsValidationWarnings := [],
          modelValidationWarning := none, sessionId := some ("A") }
        {}
        [.sysInit ("B"), .resultMsg { session_id := "B", subtype := some ("success") }]
        none).finalSid = some ("A") := by
  refine ⟨by decide, ?_, ?_⟩
  · exact (session_id_write_once _ ("A") _ _ _ rfl).1
  · exact (session_id_write_once _ ("A") _ _ _ rfl).2

theorem genLoop_append (prompt : String) (es tail : List AmpMessage) :
    ∀ st, genLoop prompt st (es ++ tail) =
      match genLoop prompt st es with
      | .done st' => genLoop prompt st' tail
      | .thrown e sid => .thrown e sid := by
  induction es with
  | nil => intro st; simp [genLoop]
  | cons e rest ih =>
    intro st
    cases e with
    | sysInit sid => simp only [List.cons_append, genLoop]; exact ih _
    | assistantMsg content => simp only [List.cons_append, genLoop]; exact ih _
    | resultMsg r =>
      simp only [List.cons_append, genLoop]
      split
      · rfl
      · exact ih _
    | otherMsg => simp only [List.cons_append, genLoop]; exact ih _

theorem genLoop_cons_assistant (prompt : String) (st : GenState)
    (content : Option (List AmpContentPart)) (rest : List AmpMessage) :
    genLoop prompt st (.assistantMsg content :: rest) =
      genLoop prompt
        (if (match content with
             | some parts => assistantText parts
             | none => "") != "" then
          { st with accumulatedText := st.accumulatedText ++
              (match content with
               | some parts => assistantText parts
               | none => "") }
        else st) rest := rfl

theorem genLoop_noResult (prompt : String) :
    ∀ (es : List AmpMessage), hasResult es = false →
      ∀ st, ∃ st', genLoop prompt st es = .done st' ∧ st'.usage = st.usage := by
  intro es
  induction es with
  | nil => intro _ st; exact ⟨st, rfl, rfl⟩
  | cons e rest ih =>
    intro h st
    cases e with
    | sysInit sid =>
      obtain ⟨st', h1, h2⟩ := ih (by simpa [hasResult] using h) _
      exact ⟨st', h1, h2⟩
    | assistantMsg content =>
      have hrest : hasResult rest = false := by simpa [hasResult] using h
      clear h
      rw [genLoop_cons_assistant]
      obtain ⟨st', h1, h2⟩ :=
        ih hrest
          (if (match content with
                | some parts => assistantText parts
                | none => "") != "" then
            { st with accumulatedText := st.accumulatedText ++
                (match content with
                 | some parts => assistantText parts
                 | none => "") }
          else st)
      refine ⟨st', h1, ?_⟩
      rw [h2]
      split <;> rfl
    | resultMsg r => simp [hasResult] at h
    | otherMsg =>
      obtain ⟨st', h1, h2⟩ := ih (by simpa [hasResult] using h) _
      exact ⟨st', h1, h2⟩

theorem doGenerate_okUsage_of_done (m : ModelState) (o : CallOptions)
    (events : List AmpMessage) (st : GenState)
    (h : genLoop (convertToAmpMessages o.promptMsgs o.responseFormat)
        (initGenState m.sessionId) events = .done st) :
    (doGenerate m o events none).okUsage = some st.usage := by
  unfold doGenerate
  simp [h, GenOutcome.okUsage]

/-- The usage carried by a finish part, if the part is one. -/
def finishUsage? : StreamPart → Option Usage
  | .finish _ u _ _ _ => some u
  | _ => none

theorem getLast?_keep_cons (g : StreamPart → Option Usage) (x : StreamPart)
    (l : List StreamPart) (u : Usage) (h : (l.getLast?.bind g) = some u) :
    (((x :: l).getLast?).bind g) = some u := by
  have hne : l ≠ [] := by
    intro h0
    rw [h0] at h
    cases h
  rw [show (x :: l) = [x] ++ l from rfl, List.getLast?_append_of_ne_nil _ hne]
  exact h

theorem streamLoop_finish_usage (jm : Bool) (mid : String) (r : AmpResult)
    (hr : ¬r.is_error = true) :
    ∀ (es : List AmpMessage) (st : StState), hasResult es = false →
      (streamLoop jm mid st (es ++ [.resultMsg r])).thrown = none ∧
      (((streamLoop jm mid st (es ++ [.resultMsg r])).parts.getLast?).bind
          finishUsage?) =
        some (match r.usage with
          | some u => computeUsage u
          | none => st.usage) := by
  intro es
  induction es with
  | nil =>
    intro st _
    constructor
    · simp only [List.nil_append, streamLoop]
      rw [if_neg hr]
    · simp only [List.nil_append, streamLoop]
      rw [if_neg hr]
      split
      · rw [List.getLast?_concat]
        simp [finishUsage?]
      · split <;> (rw [List.getLast?_concat]; simp [finishUsage?])
  | cons e rest ih =>
    intro st h
    cases e with
    | sysInit sid =>
      have h2 : hasResult rest = false := by
        simpa [hasResult] using h
      obtain ⟨iht, ihl⟩ :=
        ih { st with adapterSid := setSessionId st.adapterSid sid } h2
      exact ⟨iht, getLast?_keep_cons _ _ _ _ ihl⟩
    | assistantMsg content =>
      have h2 : hasResult rest = false := by
        simpa [hasResult] using h
      clear h
      simp only [List.cons_append, streamLoop]
      split
      · split
        · exact ih _ h2
        · split
          · obtain ⟨iht, ihl⟩ := ih _ h2
            exact ⟨iht, getLast?_keep_cons _ _ _ _ ihl⟩
          · obtain ⟨iht, ihl⟩ := ih _ h2
            exact ⟨iht, getLast?_keep_cons _ _ _ _
              (getLast?_keep_cons _ _ _ _ ihl)⟩
      · exact ih _ h2
    | resultMsg rr => simp [hasResult] at h
    | otherMsg =>
      simp only [List.cons_append, streamLoop]
      exact ih _ (by simpa [hasResult] using h)

/-- The field facts of the usage computation shared by both engines. -/
theorem computeUsage_fields (u : RawUsage) :
    (computeUsage u).inputTokens = u.input_tokens.getD 0 +
      u.cache_creation_input_tokens.getD 0 + u.cache_read_input_tokens.getD 0 ∧
    (computeUsage u).outputTokens = u.output_tokens.getD 0 ∧
    (computeUsage u).totalTokens =
      (computeUsage u).inputTokens + (computeUsage u).outputTokens := by
  constructor
  · simp only [computeUsage]
    omega
  · exact ⟨rfl, rfl⟩

/-- C6: for a run whose only result event is a terminal one carrying a usage
block, the usage returned by `doGenerate` — and the usage carried by the
finish part `doStream` emits — has `inputTokens` equal to the sum of the
fresh, cache-creation and cache-read input counters (each defaulting to 0)
and `totalTokens = inputTokens + outputTokens`; with no usage block on the
terminal event, or no terminal event at all, all three fields are zero. -/
theorem usage_accounting (m : ModelState) (o : CallOptions)
    (es : List AmpMessage) (r : AmpResult) :
    (∀ us, hasResult es = false → r.is_error = false →
      (doGenerate m o (es ++ [.resultMsg r]) none).okUsage = some us →
      (∀ u, r.usage = some u →
        us.inputTokens = u.input_tokens.getD 0 + u.cache_creation_input_tokens.getD 0 +
          u.cache_read_input_tokens.getD 0 ∧
        us.outputTokens = u.output_tokens.getD 0 ∧
        us.totalTokens = us.inputTokens + us.outputTokens) ∧
      (r.usage = none → us = Usage.zero)) ∧
    (∀ us, hasResult es = false →
      (doGenerate m o es none).okUsage = some us → us = Usage.zero) ∧
    (∀ us, hasResult es = false → r.is_error = false →
      (((doStream m o (es ++ [.resultMsg r]) none).parts.getLast?).bind
        finishUsage?) = some us →
      (∀ u, r.usage = some u →
        us.inputTokens = u.input_tokens.getD 0 + u.cache_creation_input_tokens.getD 0 +
          u.cache_read_input_tokens.getD 0 ∧
        us.outputTokens = u.output_tokens.getD 0 ∧
        us.totalTokens = us.inputTokens + us.outputTokens) ∧
      (r.usage = none → us = Usage.zero)) := by
  refine ⟨?_, ?_, ?_⟩
  · intro us hes herr hok
    obtain ⟨st', h1, h2⟩ :=
      genLoop_noResult (convertToAmpMessages o.promptMsgs o.responseFormat) es hes
        (initGenState m.sessionId)
    have hloop : genLoop (convertToAmpMessages o.promptMsgs o.responseFormat)
        (initGenState m.sessionId) (es ++ [.resultMsg r]) =
        .done { st' with
          sessionIdResp := some r.session_id
          adapterSid := setSessionId st'.adapterSid r.session_id
          durationMs := r.duration_ms
          usage := (match r.usage with
            | some u => computeUsage u
            | none => st'.usage)
          costUsd := (match r.total_cost_usd with
            | some c => some c
            | none => st'.costUsd)
          finishReason := mapAmpFinishReason r.subtype } := by
      rw [genLoop_append, h1]
      simp [genLoop, herr]
    have husg := doGenerate_okUsage_of_done m o (es ++ [.resultMsg r]) _ hloop
    rw [husg] at hok
    have hus : us = (match r.usage with
        | some u => computeUsage u
        | none => st'.usage) := by
      cases hok; rfl
    have hzero : st'.usage = Usage.zero := by
      rw [h2]; rfl
    constructor
    · intro u hu
      rw [hus, hu]
      exact computeUsage_fields u
    · intro hu
      rw [hus, hu, hzero]
  · intro us hes hok
    obtain ⟨st', h1, h2⟩ :=
      genLoop_noResult (convertToAmpMessages o.promptMsgs o.responseFormat) es hes
        (initGenState m.sessionId)
    have husg := doGenerate_okUsage_of_done m o es _ h1
    rw [husg] at hok
    cases hok
    rw [h2]; rfl
  · intro us hes herr hok
    obtain ⟨iht, ihl⟩ := streamLoop_finish_usage (isJsonFormat o.responseFormat)
      m.modelId r (by simp [herr]) es
      { accumulatedText := "", textPartId := none, nextId := 0,
        usage := Usage.zero, adapterSid := m.sessionId } hes
    unfold doStream at hok
    simp only [iht, List.append_nil] at hok
    rw [getLast?_keep_cons _ _ _ _ ihl] at hok
    have hus : us = (match r.usage with
        | some u => computeUsage u
        | none => Usage.zero) := by
      cases hok; rfl
    constructor
    · intro u hu
      rw [hus, hu]
      exact computeUsage_fields u
    · intro hu
      rw [hus, hu]

/-- A fixture adapter instance with default settings and no remembered id. -/
def fxModel : ModelState :=
  { modelId := "default"
    settings := {}
    settingsValidationWarnings := []
    modelValidationWarning := none
    sessionId := none }

/-- A fixture call with no prompt messages and no response format. -/
def fxCall : CallOptions := {}

/-- A fixture usage block: fresh input 3, output 7, cache-creation input 2,
cache-read input 1. -/
def fxRawUsage : RawUsage :=
  { input_tokens := some 3
    output_tokens := some 7
    cache_creation_input_tokens := some 2
    cache_read_input_tokens := some 1 }

/-- A fixture successful terminal result carrying the fixture usage block. -/
def fxResultUsage : AmpResult :=
  { session_id := "A", subtype := some ("success"), usage := some fxRawUsage }

/-- C6 witness: a terminal result with fresh input 3, cache-creation input 2,
cache-read input 1 and output 7 yields usage (6, 7, 13), and the total equals
input plus output. -/
theorem usage_accounting_witness :
    (doGenerate fxModel fxCall ([.sysInit ("A")] ++ [.resultMsg fxResultUsage])
        none).okUsage = some (Usage.mk 6 7 13) ∧
    (Usage.mk 6 7 13).inputTokens = 3 + 2 + 1 ∧
    (Usage.mk 6 7 13).totalTokens =
      (Usage.mk 6 7 13).inputTokens + (Usage.mk 6 7 13).outputTokens ∧
    (((doStream fxModel fxCall ([.sysInit ("A")] ++ [.resultMsg fxResultUsage])
        none).parts.getLast?).bind finishUsage?) = some (Usage.mk 6 7 13) := by
  refine ⟨by decide, ?_, ?_, ?_⟩
  · exact ((usage_accounting fxModel fxCall [.sysInit ("A")] fxResultUsage).1
      (Usage.mk 6 7 13) (by decide) (by decide) (by decide)).1 fxRawUsage rfl |>.1
  · exact ((usage_accounting fxModel fxCall [.sysInit ("A")] fxResultUsage).1
      (Usage.mk 6 7 13) (by decide) (by decide) (by decide)).1 fxRawUsage rfl |>.2.2
  · rfl

theorem listHasInfix_of_isPrefixOf (n l : List Char) (h : n.isPrefixOf l = true) :
    listHasInfix n l = true := by
  cases l with
  | nil => simpa [listHasInfix] using h
  | cons c t => simp [listHasInfix, h]

theorem listHasInfix_of_append (n : List Char) :
    ∀ (a b : List Char), listHasInfix n (a ++ (n ++ b)) = true := by
  intro a
  induction a with
  | nil =>
    intro b
    apply listHasInfix_of_isPrefixOf
    simp [List.isPrefixOf_iff_prefix]
  | cons c t ih =>
    intro b
    have hc : (c :: t) ++ (n ++ b) = c :: (t ++ (n ++ b)) := rfl
    rw [hc]
    simp [listHasInfix, ih b]

theorem strIncludes_of_decomp (s x a b : String) (h : s = a ++ (x ++ b)) :
    strIncludes s x = true := by
  subst h
  unfold strIncludes
  have hd : (a ++ (x ++ b)).data = a.data ++ (x.data ++ b.data) := by simp
  rw [hd]
  exact listHasInfix_of_append x.data a.data b.data

theorem joinWith_mem_decomp (sep x : String) :
    ∀ (l : List String), x ∈ l → ∃ a b, joinWith sep l = a ++ (x ++ b) := by
  intro l
  induction l with
  | nil => intro h; cases h
  | cons y tl ih =>
    intro h
    cases tl with
    | nil =>
      have hx : x = y := by simpa using h
      subst hx
      refine ⟨"", "", ?_⟩
      simp [joinWith]
    | cons z tl2 =>
      rcases List.mem_cons.mp h with h1 | h2
      · subst h1
        refine ⟨"", sep ++ joinWith sep (z :: tl2), ?_⟩
        simp [joinWith, String.append_assoc]
      · obtain ⟨a, b, hab⟩ := ih h2
        refine ⟨y ++ sep ++ a, b, ?_⟩
        simp [joinWith, hab, String.append_assoc]

/-- The mutual-exclusion message of `validateSettings`. -/
def conflictText : String := "continue and resume cannot be used together"

theorem conflict_mem_errors (s : AmpSettings)
    (hc : jsTruthyBS s.continueOpt = true) (hr : jsTruthyStr s.resume = true) :
    conflictText ∈ (validateSettings s).errors ∧
    (validateSettings s).valid = false := by
  have hm : conflictText ∈ (validateSettings s).errors := by
    unfold validateSettings
    simp [hc, hr, conflictText]
  refine ⟨hm, ?_⟩
  have hne : (validateSettings s).errors ≠ [] := List.ne_nil_of_mem hm
  unfold validateSettings at hne ⊢
  simpa [List.isEmpty_iff] using hne

/-- C10: whenever the merged settings of a model have both a truthy continue
flag and a truthy resume id, `createModel` (the path of `createAmp`'s
provider and of the default `amp` provider) returns an error whose message
includes the mutual-exclusion text, and no model instance is constructed;
the same validation rejects conflicting provider default settings inside
`createAmp` itself. -/
theorem continue_resume_exclusive :
    (∀ (p : AmpProviderState) (modelId : String) (s : Option AmpSettings),
      jsTruthyBS (mergeSettings (p.defaultSettings.getD emptySettings)
        (s.getD emptySettings)).continueOpt = true →
      jsTruthyStr (mergeSettings (p.defaultSettings.getD emptySettings)
        (s.getD emptySettings)).resume = true →
      ∃ msg, createModel p modelId s = .error msg ∧
        strIncludes msg conflictText = true) ∧
    (∀ d : AmpSettings,
      jsTruthyBS d.continueOpt = true → jsTruthyStr d.resume = true →
      ∃ msg, createAmp (some d) = .error msg ∧
        strIncludes msg conflictText = true) := by
  constructor
  · intro p modelId s hc hr
    obtain ⟨hm, hv⟩ := conflict_mem_errors _ hc hr
    obtain ⟨a, b, hab⟩ := joinWith_mem_decomp (", ") conflictText _ hm
    refine ⟨"Invalid settings: " ++
      joinWith (", ") (validateSettings (mergeSettings
        (p.defaultSettings.getD emptySettings) (s.getD emptySettings))).errors,
      ?_, ?_⟩
    · unfold createModel
      simp [hv]
    · apply strIncludes_of_decomp _ _ ("Invalid settings: " ++ a) b
      rw [hab, String.append_assoc]
  · intro d hc hr
    obtain ⟨hm, hv⟩ := conflict_mem_errors _ hc hr
    obtain ⟨a, b, hab⟩ := joinWith_mem_decomp (", ") conflictText _ hm
    refine ⟨"Invalid default settings: " ++
      joinWith (", ") (validateSettings d).errors, ?_, ?_⟩
    · unfold createAmp
      simp [hv]
    · apply strIncludes_of_decomp _ _ ("Invalid default settings: " ++ a) b
      rw [hab, String.append_assoc]

/-- Settings carrying both a continue flag and a resume id. -/
def fxConflict : AmpSettings :=
  { continueOpt := some (.bool true), resume := some ("T-1") }

/-- C10 witness: the conflicting pair is rejected when it comes from the
model-level settings, from the provider default settings, and from their
merge (flag in the defaults, resume id in the model settings). -/
theorem continue_resume_exclusive_witness :
    (∃ msg, createModel { defaultSettings := none } ("default") (some fxConflict) =
        .error msg ∧ strIncludes msg conflictText = true) ∧
    (∃ msg, createAmp (some fxConflict) = .error msg ∧
        strIncludes msg conflictText = true) ∧
    (∃ msg, createModel
        { defaultSettings := some { continueOpt := some (.bool true) } }
        ("default") (some { resume := some ("T-1") }) = .error msg ∧
        strIncludes msg conflictText = true) :=
  ⟨continue_resume_exclusive.1 _ ("default") _ (by decide) (by decide),
   continue_resume_exclusive.2 fxConflict (by decide) (by decide),
   continue_resume_exclusive.1 _ ("default") _ (by decide) (by decide)⟩

theorem extractJson_ok_id (t : String) (h : jsonParseOk t = true) :
    extractJson t = t := by
  simp [extractJson, h]

theorem extractJsonArr_cases (t : String) :
    extractJsonArr t = t ∨ jsonParseOk (extractJsonArr t) = true := by
  unfold extractJsonArr
  cases hg : greedySpan ('[') (']') t with
  | none => exact Or.inl rfl
  | some c =>
    by_cases hp : jsonParseOk c = true
    · right; simp [hp]
    · left; simp [hp]

theorem extractJsonSpans_cases (t : String) :
    extractJsonSpans t = t ∨ jsonParseOk (extractJsonSpans t) = true := by
  unfold extractJsonSpans
  cases hg : greedySpan ('{') ('}') t with
  | none => exact extractJsonArr_cases t
  | some c =>
    by_cases hp : jsonParseOk c = true
    · right; simp [hp]
    · simp only [hp, Bool.false_eq_true, if_false]
      exact extractJsonArr_cases t

theorem extractJson_cases (t : String) :
    extractJson t = t ∨ jsonParseOk (extractJson t) = true := by
  unfold extractJson
  by_cases h1 : jsonParseOk t = true
  · right
    rw [if_pos h1]
    exact h1
  · simp only [h1, Bool.false_eq_true, if_false]
    cases hf : findFence t.data with
    | none => exact extractJsonSpans_cases t
    | some inner =>
      by_cases h2 : (jsTrim (String.mk inner) != "" &&
          jsonParseOk (jsTrim (String.mk inner))) = true
      · right
        simp only [h2, if_true]
        have h3 := h2
        simp only [Bool.and_eq_true] at h3
        exact h3.2
      · simp only [h2, Bool.false_eq_true, if_false]
        exact extractJsonSpans_cases t

theorem extractJson_not_ok (t : String)
    (h : jsonParseOk (extractJson t) = false) : extractJson t = t := by
  rcases extractJson_cases t with h1 | h1
  · exact h1
  · rw [h1] at h; cases h

theorem extractJson_idem (t : String) :
    extractJson (extractJson t) = extractJson t := by
  rcases extractJson_cases t with h1 | h1
  · rw [h1]; exact h1
  · exact extractJson_ok_id _ h1

/-- C8: the JSON extractor is a total function (its embedding is a plain
Lean function, mirroring the source's catch-all structure); on every input
whose extraction result does not parse — i.e. no candidate parsed — it
returns the original input unchanged, and it is idempotent. -/
theorem extractJson_total_idempotent (t : String) :
    (jsonParseOk (extractJson t) = false → extractJson t = t) ∧
    extractJson (extractJson t) = extractJson t :=
  ⟨extractJson_not_ok t, extractJson_idem t⟩

/-- C8 witness: on an input with no JSON anywhere the extractor returns the
input unchanged and re-extracting its own output is a fixed point. -/
theorem extractJson_total_idempotent_witness :
    extractJson ("no json here") = "no json here" ∧
    extractJson (extractJson ("no json here")) = extractJson ("no json here") :=
  ⟨(extractJson_total_idempotent ("no json here")).1 (by decide),
   (extractJson_total_idempotent ("no json here")).2⟩

/-- Whether the fenced-block candidate of `extractJson` fails (no fence, or
its trimmed content is empty or does not parse). -/
def fenceFailsB (t : String) : Bool :=
  match findFence t.data with
  | some inner =>
    !(jsTrim (String.mk inner) != "" && jsonParseOk (jsTrim (String.mk inner)))
  | none => true

/-- Whether the greedy object-span candidate of `extractJson` fails. -/
def braceFailsB (t : String) : Bool :=
  match greedySpan ('{') ('}') t with
  | some c => !(jsonParseOk c)
  | none => true

/-- C7: `extractJson` tries, in order, the whole input, the trimmed content
of the first fenced block, the greedy object span, then the greedy array
span, returning the first candidate that parses; in particular an input that
is already valid JSON is returned unchanged, and a fenced valid-JSON input
yields exactly the fenced content, trimmed. -/
theorem extractJson_candidate_order :
    (∀ t, jsonParseOk t = true → extractJson t = t) ∧
    (∀ t inner, jsonParseOk t = false → findFence t.data = some inner →
      jsonParseOk (jsTrim (String.mk inner)) = true →
      extractJson t = jsTrim (String.mk inner)) ∧
    (∀ t c, jsonParseOk t = false → fenceFailsB t = true →
      greedySpan ('{') ('}') t = some c → jsonParseOk c = true →
      extractJson t = c) ∧
    (∀ t c, jsonParseOk t = false → fenceFailsB t = true → braceFailsB t = true →
      greedySpan ('[') (']') t = some c → jsonParseOk c = true →
      extractJson t = c) := by
  have hspans : ∀ t, fenceFailsB t = true → jsonParseOk t = false →
      extractJson t = extractJsonSpans t := by
    intro t hff h1
    unfold extractJson
    simp only [h1, Bool.false_eq_true, if_false]
    unfold fenceFailsB at hff
    cases hf : findFence t.data with
    | none => rfl
    | some inner =>
      have hff2 : (!(jsTrim (String.mk inner) != "" &&
          jsonParseOk (jsTrim (String.mk inner)))) = true := by
        rw [hf] at hff
        exact hff
      have hff3 : (jsTrim (String.mk inner) != "" &&
          jsonParseOk (jsTrim (String.mk inner))) = false := by
        rw [Bool.not_eq_true'] at hff2
        exact hff2
      simp [hff3]
  refine ⟨?_, ?_, ?_, ?_⟩
  · intro t h
    exact extractJson_ok_id t h
  · intro t inner h1 hf hp
    have hne : jsTrim (String.mk inner) ≠ "" := by
      intro he
      rw [he] at hp
      exact absurd hp (by decide)
    unfold extractJson
    simp only [h1, Bool.false_eq_true, if_false, hf]
    have hb : (jsTrim (String.mk inner) != "" &&
        jsonParseOk (jsTrim (String.mk inner))) = true := by
      simp [hne, hp]
    simp [hb]
  · intro t c h1 hff hg hp
    rw [hspans t hff h1]
    unfold extractJsonSpans
    simp [hg, hp]
  · intro t c h1 hff hbf hg hp
    rw [hspans t hff h1]
    unfold extractJsonSpans
    unfold braceFailsB at hbf
    cases hgb : greedySpan ('{') ('}') t with
    | none =>
      unfold extractJsonArr
      simp [hg, hp]
    | some cb =>
      have hbf2 : (!(jsonParseOk cb)) = true := by
        rw [hgb] at hbf
        exact hbf
      have hnb : jsonParseOk cb = false := by
        rw [Bool.not_eq_true'] at hbf2
        exact hbf2
      simp only [hnb, Bool.false_eq_true, if_false]
      unfold extractJsonArr
      simp [hg, hp]

/-- C7 witness: a valid-JSON input is returned unchanged; a fenced JSON
object yields the fenced content, trimmed; a fenced-less object span and an
array span are found in surrounding prose. -/
theorem extractJson_candidate_order_witness :
    extractJson ("\x7b\x7d") = "\x7b\x7d" ∧
    extractJson ("\x60\x60\x60json\n\x7b\"a\": 1\x7d\n\x60\x60\x60") =
      "\x7b\"a\": 1\x7d" ∧
    extractJson ("text \x7b\"k\": true\x7d more") = "\x7b\"k\": true\x7d" ∧
    extractJson ("list [1, 2] tail") = "[1, 2]" := by
  refine ⟨extractJson_candidate_order.1 _ (by decide), ?_, ?_, ?_⟩
  · have h := extractJson_candidate_order.2.1
      ("\x60\x60\x60json\n\x7b\"a\": 1\x7d\n\x60\x60\x60")
      (("\n\x7b\"a\": 1\x7d\n").data) (by decide) (by decide) (by decide)
    rw [h]; decide
  · exact extractJson_candidate_order.2.2.1 ("text \x7b\"k\": true\x7d more")
      ("\x7b\"k\": true\x7d") (by decide) (by decide) (by decide) (by decide)
  · exact extractJson_candidate_order.2.2.2 ("list [1, 2] tail") ("[1, 2]")
      (by decide) (by decide) (by decide) (by decide) (by decide)

/-- C9: the converter turns the single user message into `Hi` and the empty
message list into the empty string, as claimed; but a system message is
rendered one `System: <character>` entry per character of its content,
because the v2 wire contract makes system content a plain string and the
converter's `for (const part of message.content)` iterates it code point by
code point — so the system example diverges from the claimed
`System: Be terse` line followed by a blank line and `Hi`. -/
theorem convertToAmpMessages_examples :
    convertToAmpMessages [.user [.text ("Hi")]] none = "Hi" ∧
    convertToAmpMessages [] none = "" ∧
    convertToAmpMessages [.system ("Be terse"), .user [.text ("Hi")]] none =
      "System: B\n\nSystem: e\n\nSystem:  \n\nSystem: t\n\nSystem: e\n\nSystem: r\n\nSystem: s\n\nSystem: e\n\nHi" ∧
    convertToAmpMessages [.system ("Be terse"), .user [.text ("Hi")]] none ≠
      "System: Be terse\n\nHi" :=
  ⟨by decide, by decide, by decide, by decide⟩

/-- C5: in `doGenerate` with JSON mode and a non-empty accumulated text, a
candidate that fails to parse never fails the call: the result is still
successful, the extraction warning is appended, and the returned text equals
the extractor's output (which, on a failed parse, is the unchanged
accumulated text). -/
theorem json_extraction_failure_nonfatal (m : ModelState) (o : CallOptions)
    (events : List AmpMessage) (st : GenState) (sch : Option String)
    (hrf : o.responseFormat = some (.json sch))
    (hloop : genLoop (convertToAmpMessages o.promptMsgs o.responseFormat)
        (initGenState m.sessionId) events = .done st)
    (hacc : st.accumulatedText ≠ "")
    (hfail : jsonParseOk (extractJson st.accumulatedText) = false) :
    ∃ res, (doGenerate m o events none).result = .ok res ∧
      res.text = extractJson st.accumulatedText ∧
      Warning.other ("Failed to extract valid JSON from response") ∈ res.warnings := by
  have heq : extractJson st.accumulatedText = st.accumulatedText :=
    extractJson_not_ok _ hfail
  have hne : (st.accumulatedText != "") = true := by
    simpa using hacc
  unfold doGenerate
  simp only [hloop]
  rw [hrf]
  unfold jsonPostProcess
  simp only [hrf, hne, if_true, hfail, Bool.false_eq_true, if_false]
  refine ⟨_, rfl, ?_, ?_⟩
  · exact heq.symm
  · simp

/-- A JSON-mode call fixture. -/
def fxCallJson : CallOptions :=
  { promptMsgs := [.user [.text ("Hi")]], responseFormat := some (.json none) }

/-- A plain successful terminal result with no usage block. -/
def fxResultOk : AmpResult := { session_id := "A", subtype := some ("success") }

/-- An event stream accumulating text that holds no JSON. -/
def fxEventsNoJson : List AmpMessage :=
  [.assistantMsg (some [.textPart ("no json here")]), .resultMsg fxResultOk]

/-- The loop state the fixture events produce. -/
def fxStNoJson : GenState :=
  { accumulatedText := "no json here", usage := Usage.zero, finishReason := .stop,
    sessionIdResp := some ("A"), costUsd := none, durationMs := none,
    adapterSid := some ("A") }

/-- C5 witness: JSON mode over a response with no extractable JSON still
succeeds, returns the extractor's output, and carries the warning. -/
theorem json_extraction_failure_nonfatal_witness :
    ∃ res, (doGenerate fxModel fxCallJson fxEventsNoJson none).result = .ok res ∧
      res.text = extractJson (fxStNoJson.accumulatedText) ∧
      Warning.other ("Failed to extract valid JSON from response") ∈ res.warnings :=
  json_extraction_failure_nonfatal fxModel fxCallJson fxEventsNoJson fxStNoJson none
    rfl rfl (by decide) (by decide)

theorem genLoop_firstError (prompt : String) (r : AmpResult) :
    ∀ (events : List AmpMessage) (st : GenState),
      firstErrorResult events = some r →
      ∃ sid, genLoop prompt st events = .thrown (genResultError r prompt) sid := by
  intro events
  induction events with
  | nil => intro st h; cases h
  | cons e rest ih =>
    intro st h
    cases e with
    | sysInit sid => exact ih _ (by simpa [firstErrorResult] using h)
    | assistantMsg content =>
      rw [genLoop_cons_assistant]
      exact ih _ (by simpa [firstErrorResult] using h)
    | resultMsg rr =>
      by_cases he : rr.is_error = true
      · have hr : rr = r := by
          have h2 := h
          simp [firstErrorResult, he] at h2
          exact h2
        subst hr
        exact ⟨setSessionId st.adapterSid rr.session_id, by simp [genLoop, he]⟩
      · have h2 : firstErrorResult rest = some r := by
          simpa [firstErrorResult, he] using h
        have hgl : genLoop prompt st (.resultMsg rr :: rest) =
            genLoop prompt
              { st with sessionIdResp := some rr.session_id,
                        adapterSid := setSessionId st.adapterSid rr.session_id,
                        durationMs := rr.duration_ms,
                        usage := (match rr.usage with
                          | some u => computeUsage u
                          | none => st.usage)
                        costUsd := (match rr.total_cost_usd with
                          | some c => some c
                          | none => st.costUsd)
                        finishReason := mapAmpFinishReason rr.subtype } rest := by
          simp [genLoop, he]
        rw [hgl]
        exact ih _ h2
    | otherMsg => exact ih _ (by simpa [firstErrorResult] using h)

theorem handleAmpError_cause (e : AmpError) (prompt : String) :
    (handleAmpError e prompt).cause = some e := by
  unfold handleAmpError
  by_cases h : (authKeywords.any fun k => strIncludes (jsToLower e.message) k) = true
  · simp [h, createAuthenticationError, AmpError.cause]
  · simp [h, createAPICallError, AmpError.cause]

theorem handleAmpError_meta_unset (e : AmpError) (prompt : String) :
    (handleAmpError e prompt).requestBodyValues.sessionId = none ∧
    (handleAmpError e prompt).requestBodyValues.durationMs = none := by
  unfold handleAmpError
  by_cases h : (authKeywords.any fun k => strIncludes (jsToLower e.message) k) = true
  · simp [h, createAuthenticationError, AmpError.requestBodyValues]
  · simp [h, createAPICallError, AmpError.requestBodyValues]

theorem streamLoop_firstError (jm : Bool) (mid : String) (r : AmpResult) :
    ∀ (events : List AmpMessage) (st : StState),
      firstErrorResult events = some r →
      (streamLoop jm mid st events).thrown = some (streamResultError r) := by
  intro events
  induction events with
  | nil => intro st h; cases h
  | cons e rest ih =>
    intro st h
    cases e with
    | sysInit sid =>
      simp only [streamLoop]
      exact ih _ (by simpa [firstErrorResult] using h)
    | assistantMsg content =>
      have h2 := (by simpa [firstErrorResult] using h :
        firstErrorResult rest = some r)
      simp only [streamLoop]
      split
      · split
        · exact ih _ h2
        · split <;> simp [ih _ h2]
      · exact ih _ h2
    | resultMsg rr =>
      by_cases he : rr.is_error = true
      · have hr : rr = r := by
          have h2 := h
          simp [firstErrorResult, he] at h2
          exact h2
        subst hr
        simp [streamLoop, he]
      · have h2 : firstErrorResult rest = some r := by
          simpa [firstErrorResult, he] using h
        simp only [streamLoop]
        rw [if_neg he]
        simp [ih _ h2]
    | otherMsg =>
      simp only [streamLoop]
      exact ih _ (by simpa [firstErrorResult] using h)

/-- An error-marked terminal result with session id `S`, duration 42 and
turn count 1. -/
def fxResultErr : AmpResult :=
  { session_id := "S", duration_ms := some 42, num_turns := some 1,
    is_error := true, errorVal := some ("boom") }

/-- An event stream consisting of the error-marked terminal result alone. -/
def fxEventsErr : List AmpMessage := [.resultMsg fxResultErr]

/-- C3 counterexample: for the event stream whose terminal result is
error-marked with session id `S` and duration 42, the error `doGenerate`
actually throws does not carry that session id or duration in its own
metadata (the classifier wraps the original error, and only the wrapped
cause retains them). -/
theorem error_result_metadata_cex :
    ∃ e, (doGenerate fxModel fxCall fxEventsErr none).result = .error e ∧
      e.requestBodyValues.sessionId = none ∧
      e.requestBodyValues.durationMs = none ∧
      e.requestBodyValues.sessionId ≠ some (fxResultErr.session_id) ∧
      e.requestBodyValues.durationMs ≠ fxResultErr.duration_ms :=
  ⟨handleAmpError (genResultError fxResultErr ("")) (""),
   rfl, rfl, rfl, by decide, by decide⟩

/-- C3 amended: a terminal result event marked as an error always makes
`doGenerate` throw (and `doStream` end with a single error part) — never a
silently empty success — and the thrown/emitted error's *cause* is the call
error carrying the session id, duration (and turn count) of that terminal
event as metadata; the top-level classified error itself carries only the
original message and a prompt excerpt. -/
theorem error_result_error_metadata (m : ModelState) (o : CallOptions)
    (events : List AmpMessage) (f : Option AmpError) (r : AmpResult)
    (h : firstErrorResult events = some r) :
    (∃ e inner, (doGenerate m o events f).result = .error e ∧
      e.cause = some inner ∧
      e.requestBodyValues.sessionId = none ∧
      inner.requestBodyValues.sessionId = some r.session_id ∧
      inner.requestBodyValues.durationMs = r.duration_ms ∧
      inner.requestBodyValues.numTurns = r.num_turns) ∧
    (∃ e inner, (doStream m o events f).parts.getLast? = some (.errorPart e) ∧
      e.cause = some inner ∧
      e.requestBodyValues.sessionId = none ∧
      inner.requestBodyValues.sessionId = some r.session_id ∧
      inner.requestBodyValues.durationMs = r.duration_ms) := by
  constructor
  · obtain ⟨sid, hl⟩ := genLoop_firstError
      (convertToAmpMessages o.promptMsgs o.responseFormat) r events
      (initGenState m.sessionId) h
    refine ⟨handleAmpError
        (genResultError r (convertToAmpMessages o.promptMsgs o.responseFormat))
        (convertToAmpMessages o.promptMsgs o.responseFormat),
      genResultError r (convertToAmpMessages o.promptMsgs o.responseFormat),
      ?_, handleAmpError_cause _ _, (handleAmpError_meta_unset _ _).1, rfl, rfl, rfl⟩
    unfold doGenerate
    simp [hl]
  · have ht := streamLoop_firstError (isJsonFormat o.responseFormat) m.modelId r
      events
      { accumulatedText := "", textPartId := none, nextId := 0,
        usage := Usage.zero, adapterSid := m.sessionId } h
    refine ⟨handleAmpError (streamResultError r)
        (convertToAmpMessages o.promptMsgs o.responseFormat),
      streamResultError r,
      ?_, handleAmpError_cause _ _, (handleAmpError_meta_unset _ _).1, rfl, rfl⟩
    unfold doStream
    simp only [ht]
    exact List.getLast?_concat
      (.streamStart (generateAllWarnings m o
          (convertToAmpMessages o.promptMsgs o.responseFormat)) ::
        (streamLoop (isJsonFormat o.responseFormat) m.modelId
          { accumulatedText := "", textPartId := none, nextId := 0,
            usage := Usage.zero, adapterSid := m.sessionId } events).parts)

/-- C3 witness for the amended statement, at the concrete error-marked
terminal event with session id `S`, duration 42 and turn count 1. -/
theorem error_result_error_metadata_witness :
    (∃ e inner, (doGenerate fxModel fxCall fxEventsErr none).result = .error e ∧
      e.cause = some inner ∧
      e.requestBodyValues.sessionId = none ∧
      inner.requestBodyValues.sessionId = some (fxResultErr.session_id) ∧
      inner.requestBodyValues.durationMs = fxResultErr.duration_ms ∧
      inner.requestBodyValues.numTurns = fxResultErr.num_turns) ∧
    (∃ e inner, (doStream fxModel fxCall fxEventsErr none).parts.getLast? =
          some (.errorPart e) ∧
      e.cause = some inner ∧
      e.requestBodyValues.sessionId = none ∧
      inner.requestBodyValues.sessionId = some (fxResultErr.session_id) ∧
      inner.requestBodyValues.durationMs = fxResultErr.duration_ms) :=
  error_result_error_metadata fxModel fxCall fxEventsErr none fxResultErr rfl

theorem streamLoop_thrown_none (jm : Bool) (mid : String) :
    ∀ (es : List AmpMessage) (st : StState), firstErrorResult es = none →
      (streamLoop jm mid st es).thrown = none := by
  intro es
  induction es with
  | nil => intro st _; rfl
  | cons e rest ih =>
    intro st h
    cases e with
    | sysInit sid =>
      simp only [streamLoop]
      exact ih _ (by simpa [firstErrorResult] using h)
    | assistantMsg content =>
      have h2 : firstErrorResult rest = none := by
        simpa [firstErrorResult] using h
      simp only [streamLoop]
      split
      · split
        · exact ih _ h2
        · split <;> simp [ih _ h2]
      · exact ih _ h2
    | resultMsg rr =>
      by_cases he : rr.is_error = true
      · simp [firstErrorResult, he] at h
      · have h2 : firstErrorResult rest = none := by
          simpa [firstErrorResult, he] using h
        simp only [streamLoop]
        rw [if_neg he]
        simp [ih _ h2]
    | otherMsg =>
      simp only [streamLoop]
      exact ih _ (by simpa [firstErrorResult] using h)

theorem streamLoop_errorPart_count (jm : Bool) (mid : String) :
    ∀ (es : List AmpMessage) (st : StState),
      (streamLoop jm mid st es).parts.countP isErrorPart = 0 := by
  intro es
  induction es with
  | nil => intro st; rfl
  | cons e rest ih =>
    intro st
    cases e with
    | sysInit sid =>
      simp only [streamLoop]
      simp [List.countP_cons, isErrorPart, ih]
    | assistantMsg content =>
      simp only [streamLoop]
      split
      · split
        · exact ih _
        · split <;> simp [List.countP_cons, isErrorPart, ih]
      · exact ih _
    | resultMsg rr =>
      simp only [streamLoop]
      split
      · rfl
      · split <;> (split <;>
          simp [List.countP_append, List.countP_cons, isErrorPart, ih])
    | otherMsg =>
      simp only [streamLoop]
      exact ih _

theorem getLast?_map_cons_of (p : StreamPart → Bool) (x : StreamPart)
    (l : List StreamPart) (h : (l.getLast?.map p) = some true) :
    (((x :: l).getLast?).map p) = some true := by
  have hne : l ≠ [] := by
    intro h0
    rw [h0] at h
    simp at h
  rw [show (x :: l) = [x] ++ l from rfl, List.getLast?_append_of_ne_nil _ hne]
  exact h

theorem streamLoop_last_finish (jm : Bool) (mid : String) (r : AmpResult)
    (hr : ¬r.is_error = true) :
    ∀ (es : List AmpMessage) (st : StState), firstErrorResult es = none →
      (streamLoop jm mid st (es ++ [.resultMsg r])).thrown = none ∧
      ((streamLoop jm mid st (es ++ [.resultMsg r])).parts.getLast?.map
        isFinishPart) = some true := by
  intro es
  induction es with
  | nil =>
    intro st _
    constructor
    · simp only [List.nil_append, streamLoop]
      rw [if_neg hr]
    · simp only [List.nil_append, streamLoop]
      rw [if_neg hr]
      split
      · rw [List.getLast?_concat]
        simp [isFinishPart]
      · split <;> (rw [List.getLast?_concat]; simp [isFinishPart])
  | cons e rest ih =>
    intro st h
    cases e with
    | sysInit sid =>
      have h2 : firstErrorResult rest = none := by
        simpa [firstErrorResult] using h
      obtain ⟨iht, ihl⟩ :=
        ih { st with adapterSid := setSessionId st.adapterSid sid } h2
      exact ⟨iht, getLast?_map_cons_of _ _ _ ihl⟩
    | assistantMsg content =>
      have h2 : firstErrorResult rest = none := by
        simpa [firstErrorResult] using h
      clear h
      simp only [List.cons_append, streamLoop]
      split
      · split
        · exact ih _ h2
        · split
          · obtain ⟨iht, ihl⟩ := ih _ h2
            exact ⟨iht, getLast?_map_cons_of _ _ _ ihl⟩
          · obtain ⟨iht, ihl⟩ := ih _ h2
            exact ⟨iht, getLast?_map_cons_of _ _ _
              (getLast?_map_cons_of _ _ _ ihl)⟩
      · exact ih _ h2
    | resultMsg rr =>
      by_cases he : rr.is_error = true
      · simp [firstErrorResult, he] at h
      · have h2 : firstErrorResult rest = none := by
          simpa [firstErrorResult, he] using h
        clear h
        simp only [List.cons_append, streamLoop]
        rw [if_neg he]
        split
        · obtain ⟨iht, ihl⟩ := ih _ h2
          refine ⟨iht, ?_⟩
          rw [List.getLast?_append_cons]
          exact getLast?_map_cons_of _ _ _ ihl
        · obtain ⟨iht, ihl⟩ := ih _ h2
          refine ⟨iht, ?_⟩
          rw [List.getLast?_append_cons]
          exact getLast?_map_cons_of _ _ _ ihl
    | otherMsg =>
      simp only [List.cons_append, streamLoop]
      exact ih _ (by simpa [firstErrorResult] using h)

theorem streamLoop_textEnd_count (jm : Bool) (mid : String) (r : AmpResult)
    (hr : ¬r.is_error = true) :
    ∀ (es : List AmpMessage) (st : StState), firstErrorResult es = none →
      hasAssistant es = false → st.textPartId = none → st.accumulatedText = "" →
      (streamLoop jm mid st (es ++ [.resultMsg r])).parts.countP isTextEndPart = 0 := by
  intro es
  induction es with
  | nil =>
    intro st _ _ htp hacc
    simp only [List.nil_append, streamLoop]
    rw [if_neg hr]
    rw [List.countP_eq_zero]
    intro a ha
    simp only [hacc, htp] at ha
    simp at ha
    rw [ha]
    simp [isTextEndPart]
  | cons e rest ih =>
    intro st h ha htp hacc
    cases e with
    | sysInit sid =>
      have h2 : firstErrorResult rest = none := by
        simpa [firstErrorResult] using h
      have ha2 : hasAssistant rest = false := by
        simpa [hasAssistant] using ha
      have ih' := ih { st with adapterSid := setSessionId st.adapterSid sid }
        h2 ha2 htp hacc
      rw [List.countP_eq_zero] at ih'
      simp only [List.cons_append, streamLoop]
      rw [List.countP_eq_zero]
      intro a hma
      rcases List.mem_cons.mp hma with h1 | h1
      · rw [h1]; simp [isTextEndPart]
      · exact ih' a h1
    | assistantMsg content => simp [hasAssistant] at ha
    | resultMsg rr =>
      by_cases he : rr.is_error = true
      · simp [firstErrorResult, he] at h
      · have h2 : firstErrorResult rest = none := by
          simpa [firstErrorResult, he] using h
        have ha2 : hasAssistant rest = false := by
          simpa [hasAssistant] using ha
        simp only [List.cons_append, streamLoop]
        rw [if_neg he]
        rw [List.countP_eq_zero]
        intro a hma
        simp only [hacc, htp] at hma
        simp at hma
        rcases hma with h1 | h1
        · rw [h1]; simp [isTextEndPart]
        · have ih' := ih
            { accumulatedText := "", textPartId := none, nextId := st.nextId,
              usage := (match rr.usage with
                | some u => computeUsage u
                | none => st.usage),
              adapterSid := setSessionId st.adapterSid rr.session_id }
            h2 ha2 rfl rfl
          rw [List.countP_eq_zero] at ih'
          exact ih' a h1
    | otherMsg =>
      simp only [List.cons_append, streamLoop]
      exact ih _ (by simpa [firstErrorResult] using h)
        (by simpa [hasAssistant] using ha) htp hacc

/-- C4: every `doStream` stream begins with a stream-start part carrying the
computed warnings; a run whose events end with a successful terminal result
(and contains no earlier error-marked result, with no iterator failure) ends
with a finish part; any exception — an error-marked result or an iterator
failure — makes the stream end with exactly one error part; and a run with
zero assistant-content events emits no text-end part at all (no text part is
ever closed that was not opened). -/
theorem stream_lifecycle (m : ModelState) (o : CallOptions)
    (events : List AmpMessage) (f : Option AmpError) :
    ((doStream m o events f).parts.head? = some (.streamStart
      (generateAllWarnings m o
        (convertToAmpMessages o.promptMsgs o.responseFormat)))) ∧
    (∀ es r, events = es ++ [.resultMsg r] → firstErrorResult es = none →
      r.is_error = false → f = none →
      ((doStream m o events f).parts.getLast?.map isFinishPart) = some true) ∧
    (((firstErrorResult events).isSome || f.isSome) = true →
      ((doStream m o events f).parts.getLast?.map isErrorPart) = some true ∧
      (doStream m o events f).parts.countP isErrorPart = 1) ∧
    (∀ es r, events = es ++ [.resultMsg r] → firstErrorResult es = none →
      r.is_error = false → f = none → hasAssistant es = false →
      (doStream m o events f).parts.countP isTextEndPart = 0) := by
  refine ⟨rfl, ?_, ?_, ?_⟩
  · intro es r hev hfe hre hff
    subst hev
    subst hff
    obtain ⟨iht, ihl⟩ := streamLoop_last_finish (isJsonFormat o.responseFormat)
      m.modelId r (by simp [hre]) es
      { accumulatedText := "", textPartId := none, nextId := 0,
        usage := Usage.zero, adapterSid := m.sessionId } hfe
    unfold doStream
    simp only [iht, List.append_nil]
    exact getLast?_map_cons_of _ _ _ ihl
  · intro hex
    cases hfe : firstErrorResult events with
    | some r =>
      have ht := streamLoop_firstError (isJsonFormat o.responseFormat)
        m.modelId r events
        { accumulatedText := "", textPartId := none, nextId := 0,
          usage := Usage.zero, adapterSid := m.sessionId } hfe
      unfold doStream
      simp only [ht]
      constructor
      · have hlast : (((streamLoop (isJsonFormat o.responseFormat) m.modelId
            { accumulatedText := "", textPartId := none, nextId := 0,
              usage := Usage.zero, adapterSid := m.sessionId } events).parts ++
            [StreamPart.errorPart (handleAmpError (streamResultError r)
              (convertToAmpMessages o.promptMsgs o.responseFormat))]).getLast?.map
            isErrorPart) = some true := by
          rw [List.getLast?_concat]
          simp [isErrorPart]
        exact getLast?_map_cons_of _ _ _ hlast
      · simp [List.countP_cons, List.countP_append, isErrorPart,
          streamLoop_errorPart_count]
    | none =>
      rw [hfe] at hex
      simp only [Option.isSome_none, Bool.false_or] at hex
      cases f with
      | none => cases hex
      | some e =>
        have ht := streamLoop_thrown_none (isJsonFormat o.responseFormat)
          m.modelId events
          { accumulatedText := "", textPartId := none, nextId := 0,
            usage := Usage.zero, adapterSid := m.sessionId } hfe
        unfold doStream
        simp only [ht]
        constructor
        · have hlast : (((streamLoop (isJsonFormat o.responseFormat) m.modelId
              { accumulatedText := "", textPartId := none, nextId := 0,
                usage := Usage.zero, adapterSid := m.sessionId } events).parts ++
              [StreamPart.errorPart (handleAmpError e
                (convertToAmpMessages o.promptMsgs o.responseFormat))]).getLast?.map
              isErrorPart) = some true := by
            rw [List.getLast?_concat]
            simp [isErrorPart]
          exact getLast?_map_cons_of _ _ _ hlast
        · simp [List.countP_cons, List.countP_append, isErrorPart,
            streamLoop_errorPart_count]
  · intro es r hev hfe hre hff hna
    subst hev
    subst hff
    have iht := (streamLoop_last_finish (isJsonFormat o.responseFormat)
      m.modelId r (by simp [hre]) es
      { accumulatedText := "", textPartId := none, nextId := 0,
        usage := Usage.zero, adapterSid := m.sessionId } hfe).1
    unfold doStream
    simp only [iht, List.append_nil]
    rw [List.countP_cons_of_neg _ _ (by simp [isTextEndPart])]
    exact streamLoop_textEnd_count (isJsonFormat o.responseFormat) m.modelId r
      (by simp [hre]) es
      { accumulatedText := "", textPartId := none, nextId := 0,
        usage := Usage.zero, adapterSid := m.sessionId } hfe hna rfl rfl

/-- A zero-assistant event stream: initialization, then terminal success. -/
def fxEventsZero : List AmpMessage := [.sysInit ("A"), .resultMsg fxResultOk]

/-- C4 witness: the zero-assistant stream starts with stream-start, ends with
a finish part and emits no text-end; the error-result stream ends with
exactly one error part. -/
theorem stream_lifecycle_witness :
    ((doStream fxModel fxCall fxEventsZero none).parts.head? =
      some (.streamStart (generateAllWarnings fxModel fxCall
        (convertToAmpMessages fxCall.promptMsgs fxCall.responseFormat)))) ∧
    ((doStream fxModel fxCall fxEventsZero none).parts.getLast?.map
      isFinishPart) = some true ∧
    ((doStream fxModel fxCall fxEventsErr none).parts.getLast?.map
      isErrorPart) = some true ∧
    (doStream fxModel fxCall fxEventsErr none).parts.countP isErrorPart = 1 ∧
    (doStream fxModel fxCall fxEventsZero none).parts.countP isTextEndPart = 0 := by
  refine ⟨(stream_lifecycle fxModel fxCall fxEventsZero none).1,
    (stream_lifecycle fxModel fxCall fxEventsZero none).2.1
      [.sysInit ("A")] fxResultOk rfl rfl rfl rfl,
    ((stream_lifecycle fxModel fxCall fxEventsErr none).2.2.1 (by decide)).1,
    ((stream_lifecycle fxModel fxCall fxEventsErr none).2.2.1 (by decide)).2,
    (stream_lifecycle fxModel fxCall fxEventsZero none).2.2.2
      [.sysInit ("A")] fxResultOk rfl rfl rfl rfl rfl⟩

end AmpSdk
